import Mathlib

/-!
# MG Sprite Customiser — verification of the sprite compositing engine

A shallow embedding of the repository's rendering core, together with proofs
about it.  Colours are modelled in straight (non-premultiplied) RGBA form with
rational channel values on the scale where 1 corresponds to the CSS channel
value 255; the HTML canvas compositing operators used by the code
(`source-over`, `source-atop`, `destination-in`, `lighter`, and the
separable/non-separable blend modes) are given their Porter-Duff / W3C
compositing semantics.  Pieces supplied by the host browser rather than by the
repository — gradient rasterisation, the mixing function of the non-separable
blend modes, the set of compositing operators the 2D context honours, the
wall clock and the image loader — appear as explicit parameters.

Convention: a fully transparent pixel read back from a canvas has colour
(0,0,0,0), so compositing functions normalise the colour channels of an
alpha-zero result to zero exactly where the real canvas (which stores
premultiplied data) would.
-/

/-- A straight-alpha RGBA pixel value; channels are rationals (1 = CSS 255). -/
structure RGBA where
  r : ℚ
  g : ℚ
  b : ℚ
  a : ℚ
deriving DecidableEq

/-- The fully transparent pixel, as read back from a cleared canvas. -/
def clearPixel : RGBA := ⟨0, 0, 0, 0⟩

/-- A pixel surface: an addressable RGBA buffer, modelled as a total function
from integer pixel coordinates to pixel values. -/
def Surface : Type := ℕ × ℕ → RGBA

/-- The blank (fully transparent) surface of a freshly created canvas. -/
def blankSurface : Surface := fun _ => clearPixel

/-- Porter-Duff `source-over` in straight-alpha form:
`αo = αs + αd·(1-αs)`, `Co = (Cs·αs + Cd·αd·(1-αs))/αo` (transparent if `αo = 0`). -/
def sourceOver (s d : RGBA) : RGBA :=
  let ao := s.a + d.a * (1 - s.a)
  if ao = 0 then clearPixel
  else ⟨(s.r * s.a + d.r * d.a * (1 - s.a)) / ao,
        (s.g * s.a + d.g * d.a * (1 - s.a)) / ao,
        (s.b * s.a + d.b * d.a * (1 - s.a)) / ao, ao⟩

/-- Porter-Duff `source-atop` in straight-alpha form:
`result.rgb = Cs·αs + Cd·(1-αs)`, `result.a = αd`
(the operator quoted in the mutation-engine source comment). -/
def sourceAtop (s d : RGBA) : RGBA :=
  ⟨s.r * s.a + d.r * (1 - s.a),
   s.g * s.a + d.g * (1 - s.a),
   s.b * s.a + d.b * (1 - s.a), d.a⟩

/-- Porter-Duff `destination-in`: keep the destination where the source is
opaque: `αo = αd·αs`, `Co = Cd`. -/
def destinationIn (s d : RGBA) : RGBA := ⟨d.r, d.g, d.b, d.a * s.a⟩

/-- The `lighter` (plus) compositing operator, with `g` the global alpha
applied to the source. -/
def lighterOp (g : ℚ) (s d : RGBA) : RGBA :=
  let as' := g * s.a
  let ao := min 1 (as' + d.a)
  if ao = 0 then clearPixel
  else ⟨(s.r * as' + d.r * d.a) / ao, (s.g * as' + d.g * d.a) / ao,
        (s.b * as' + d.b * d.a) / ao, ao⟩

/-- W3C blend-mode compositing (used for `color`, `hue`, `saturation`,
`luminosity`, `overlay`, `screen`): the source colour is first mixed with the
backdrop by the mode's mixing function `B(Cb, Cs)` and then composited
`source-over`; `g` is the global alpha applied to the source:
`αo = αs' + αd·(1-αs')`,
`Co = (αs'·(1-αd)·Cs + αs'·αd·B(Cb,Cs) + (1-αs')·αd·Cb)/αo`. -/
def blendComposite (B : RGBA → RGBA → ℚ × ℚ × ℚ) (g : ℚ) (s d : RGBA) : RGBA :=
  let as' := g * s.a
  let ao := as' + d.a * (1 - as')
  if ao = 0 then clearPixel
  else
    let m := B d s
    ⟨(as' * (1 - d.a) * s.r + as' * d.a * m.1 + (1 - as') * d.a * d.r) / ao,
     (as' * (1 - d.a) * s.g + as' * d.a * m.2.1 + (1 - as') * d.a * d.g) / ao,
     (as' * (1 - d.a) * s.b + as' * d.a * m.2.2 + (1 - as') * d.a * d.b) / ao, ao⟩

/-- `drawImage` of a full-surface source onto a destination at (0,0) with the
default `source-over` operator. -/
def drawImage (src dst : Surface) : Surface := fun p => sourceOver (src p) (dst p)

/-- Filter definition, from `color-math.ts` (`FilterDef`).  CSS colour strings
are modelled as already-parsed straight RGBA values. -/
structure FilterDef where
  op : String
  colors : List RGBA
  a : Option ℚ := none
  ang : Option ℚ := none
  angTall : Option ℚ := none
  masked : Bool := false
deriving DecidableEq

/-- `pickBlendOp` from `color-math.ts`.  The module-level
`SUPPORTED_BLEND_OPS` probe result (a runtime property of the host's 2D
context) is passed in as the `supported` list. -/
def pickBlendOp (supported : List String) (desired : String) : String :=
  if supported.contains desired then desired
  else if supported.contains "overlay" then "overlay"
  else if supported.contains "screen" then "screen"
  else if supported.contains "lighter" then "lighter"
  else "source-atop"

/-- Host-supplied pieces of the masked-blend pipeline: the probed set of
supported compositing operators, the rasterisation of a canvas linear
gradient fill (`fillGrad`: colour stops, optional angle, full-span flag), and
the per-mode mixing function `B(Cb, Cs)` of the non-Porter-Duff blend modes. -/
structure Backend where
  supported : List String
  rasterizeGrad : List RGBA → Option ℚ → Bool → Surface
  mix : String → RGBA → RGBA → ℚ × ℚ × ℚ

/-- Draw one source pixel onto a destination pixel under a named composite
operator with global alpha `g` (the operators reachable from
`applyMaskedFilter`'s `blendOp`). -/
def drawWithOp (be : Backend) (op : String) (g : ℚ) (s d : RGBA) : RGBA :=
  if op = "source-atop" then sourceAtop ⟨s.r, s.g, s.b, g * s.a⟩ d
  else if op = "lighter" then lighterOp g s d
  else blendComposite (be.mix op) g s d

/-- `applyMaskedFilter` from `color-math.ts`: (1) rasterise the gradient on a
temp canvas, (2) mask it to `originalBase`'s alpha via `destination-in`,
(3) draw the masked gradient onto a clean copy of `originalBase` with the
picked blend mode and the filter's alpha, (4) composite the blended result
onto the accumulated canvas `ctx` with `source-atop`. -/
def applyMaskedFilter (be : Backend) (ctx originalBase : Surface)
    (filter : FilterDef) (isTall : Bool) : Surface :=
  let f := if isTall ∧ filter.angTall ≠ none then
             { filter with ang := filter.angTall } else filter
  let fullSpan : Bool := isTall && f.ang.isSome
  let blendOp := pickBlendOp be.supported f.op
  let grad := be.rasterizeGrad f.colors f.ang fullSpan
  let m : Surface := fun p => destinationIn (originalBase p) (grad p)
  let blended0 := drawImage originalBase blankSurface
  let blended : Surface := fun p => drawWithOp be blendOp (f.a.getD 1) (m p) (blended0 p)
  fun p => sourceAtop (blended p) (ctx p)

/-- The opaque white `#fff` used when a filter has no colours. -/
def whitePixel : RGBA := ⟨1, 1, 1, 1⟩

/-- The non-masked branch of `applyMutations` (`mutation-engine.ts`): a
`source-atop` `fillRect` of the filter's first colour at global alpha `f.a`
directly onto the accumulating canvas. -/
def applyFlatTint (base : Surface) (f : FilterDef) : Surface :=
  fun p =>
    let c := f.colors.headD whitePixel
    sourceAtop ⟨c.r, c.g, c.b, c.a * f.a.getD 1⟩ (base p)

/-- One step of the `applyMutations` loop: masked filters go through
`applyMaskedFilter` against the pre-mutation snapshot `originalBase`,
non-masked ones are flat `source-atop` tints on the accumulating canvas. -/
def applyStep (be : Backend) (originalBase : Surface) (isTall : Bool)
    (acc : Surface) (f : FilterDef) : Surface :=
  if f.masked then applyMaskedFilter be acc originalBase f isTall
  else applyFlatTint acc f

/-- Run a list of mutation steps in order, starting from the snapshot
`originalBase` (the accumulating canvas starts as a copy of it). -/
def runSteps (be : Backend) (originalBase : Surface) (isTall : Bool)
    (steps : List FilterDef) : Surface :=
  steps.foldl (applyStep be originalBase isTall) originalBase

/-- `rgb(r,g,b)` CSS colour on the 0..255 scale, parsed to the unit scale. -/
def rgb255 (r g b : ℚ) : RGBA := ⟨r / 255, g / 255, b / 255, 1⟩

/-- The six Rainbow gradient stops of `FILTERS.Rainbow`
(`#FF1744 #FF9100 #FFEA00 #00E676 #2979FF #D500F9`). -/
def rainbowColors : List RGBA :=
  [rgb255 255 23 68, rgb255 255 145 0, rgb255 255 234 0,
   rgb255 0 230 118, rgb255 41 121 255, rgb255 213 0 249]

/-- `FILTERS` from `mutation-defs.ts`: the per-mutation filter definitions
(CSS colour strings parsed to RGBA; `transparent` is (0,0,0,0)). -/
def FILTERS : String → Option FilterDef
  | "Gold" => some { op := "source-atop", colors := [rgb255 235 200 0], a := some 0.7 }
  | "Rainbow" => some { op := "color", colors := rainbowColors, ang := some 130,
                        angTall := some 0, masked := true }
  | "Wet" => some { op := "source-atop", colors := [rgb255 50 180 200], a := some 0.25 }
  | "Chilled" => some { op := "source-atop", colors := [rgb255 100 160 210], a := some 0.45 }
  | "Frozen" => some { op := "source-atop", colors := [rgb255 100 130 220], a := some 0.5 }
  | "Thunderstruck" => some { op := "source-atop", colors := [clearPixel], a := some 0 }
  | "Dawnlit" => some { op := "source-atop", colors := [rgb255 209 70 231], a := some 0.5 }
  | "Ambershine" => some { op := "source-atop", colors := [rgb255 190 100 40], a := some 0.5 }
  | "Dawncharged" => some { op := "source-atop", colors := [rgb255 140 80 200], a := some 0.5 }
  | "Ambercharged" => some { op := "source-atop", colors := [rgb255 170 60 25], a := some 0.5 }
  | _ => none

/-- `MUTATION_RENDER_ORDER` from `mutation-defs.ts`: rendering priority,
lower = rendered first. -/
def MUTATION_RENDER_ORDER : String → Option ℕ
  | "Wet" => some 0
  | "Chilled" => some 1
  | "Frozen" => some 2
  | "Thunderstruck" => some 3
  | "Dawnlit" => some 4
  | "Ambershine" => some 5
  | "Dawncharged" => some 6
  | "Ambercharged" => some 7
  | "Gold" => some 8
  | "Rainbow" => some 9
  | _ => none

/-- The sort key of `resolveActiveMutations`:
`MUTATION_RENDER_ORDER[x] ?? 50`. -/
def renderOrderKey (s : String) : ℕ := (MUTATION_RENDER_ORDER s).getD 50

/-- The comparator relation of `resolveActiveMutations`'s numeric sort. -/
def renderOrderLe (a b : String) : Prop := renderOrderKey a ≤ renderOrderKey b

instance : DecidableRel renderOrderLe := fun a b => by
  unfold renderOrderLe; infer_instance

/-- `resolveActiveMutations` from `mutation-defs.ts`:
`[...selected].sort((a,b) => (ORDER[a] ?? 50) - (ORDER[b] ?? 50))`.
JavaScript's `Array.prototype.sort` is a stable sort, embedded here as a
stable insertion sort over the same comparator. -/
def resolveActiveMutations (selected : List String) : List String :=
  List.insertionSort renderOrderLe selected

/-- The ten mutation ids with an entry in `MUTATION_RENDER_ORDER`. -/
def knownMutationIds : List String :=
  ["Wet", "Chilled", "Frozen", "Thunderstruck", "Dawnlit", "Ambershine",
   "Dawncharged", "Ambercharged", "Gold", "Rainbow"]

/-- `applyMutations`'s pipeline construction (`mutation-engine.ts` lines
24-42): resolve the active mutations, look each up in `FILTERS`, and append a
synthetic masked `Custom` step when the custom tint's opacity is positive.
The custom tint colour is an already-parsed RGBA value. -/
def buildPipeline (selected : List String) (customTint : Option (RGBA × ℚ)) :
    List (String × FilterDef) :=
  (resolveActiveMutations selected).filterMap
    (fun id => (FILTERS id).map (fun f => (id, f)))
  ++ (match customTint with
      | some t =>
        if 0 < t.2 then
          [("Custom", { op := "source-atop", colors := [t.1], a := some t.2,
                        masked := true })]
        else []
      | none => [])

/-- `applyMutations` from `mutation-engine.ts`: build the pipeline, return
the canvas unchanged if it is empty, otherwise snapshot the pre-mutation
surface once and apply every step in order on the accumulating canvas. -/
def applyMutations (be : Backend) (baseCanvas : Surface)
    (selectedMutations : List String) (isTall : Bool)
    (customTint : Option (RGBA × ℚ)) : Surface :=
  let pipeline := buildPipeline selectedMutations customTint
  if pipeline = [] then baseCanvas
  else runSteps be baseCanvas isTall (pipeline.map Prod.snd)

/-! ## Render cache (`render-cache.ts`) -/

/-- `MAX_ENTRIES` from `render-cache.ts`. -/
def MAX_ENTRIES : ℕ := 300

/-- `CacheEntry`: the backing canvas (a handle; its pixel data plays no role
here) and the last-used timestamp. -/
structure CacheEntry where
  canvas : ℕ
  lastUsed : ℕ
deriving DecidableEq

/-- `RenderCache`: a JavaScript `Map` is an insertion-ordered association
list with unique keys; iteration follows the list order. -/
structure RenderCache where
  entries : List (String × CacheEntry)
deriving DecidableEq

/-- JavaScript `Map.prototype.set`: update in place when the key is present
(keeping its position), otherwise append at the end. -/
def mapSet (m : List (String × CacheEntry)) (k : String) (v : CacheEntry) :
    List (String × CacheEntry) :=
  if (m.map Prod.fst).contains k then
    m.map (fun e => if e.1 = k then (k, v) else e)
  else m ++ [(k, v)]

/-- One step of `evictLru`'s linear scan: `oldest` (`none` = `Infinity`) and
`oldestKey` are replaced whenever the entry's `lastUsed` is strictly
smaller. -/
def scanStep (st : Option ℕ × String) (e : String × CacheEntry) :
    Option ℕ × String :=
  match st.1 with
  | none => (some e.2.lastUsed, e.1)
  | some o => if e.2.lastUsed < o then (some e.2.lastUsed, e.1) else st

/-- The linear scan of `evictLru`: `oldest` starts at `Infinity` and
`oldestKey` at the empty string. -/
def oldestScan (l : List (String × CacheEntry)) : String :=
  (l.foldl scanStep (none, "")).2

/-- `RenderCache.evictLru`: find the least-recently-used key by linear scan
and delete it — but only when the found key is truthy (the empty string is
falsy in JavaScript), mirroring `if (oldestKey)`.  Releasing the canvas's
backing memory has no observable effect in this model. -/
def RenderCache.evictLru (c : RenderCache) : RenderCache :=
  let oldestKey := oldestScan c.entries
  if oldestKey = "" then c
  else ⟨c.entries.filter (fun e => e.1 ≠ oldestKey)⟩

/-- `RenderCache.get`: on a hit, refresh the entry's `lastUsed` to the
current time and return its canvas; `now` stands for `Date.now()`. -/
def RenderCache.get (c : RenderCache) (now : ℕ) (key : String) :
    RenderCache × Option ℕ :=
  match (c.entries.find? (fun e => e.1 = key)) with
  | none => (c, none)
  | some e =>
    (⟨c.entries.map (fun e' => if e'.1 = key then (key, ⟨e'.2.canvas, now⟩) else e')⟩,
     some e.2.canvas)

/-- `RenderCache.set`: evict the LRU entry first when at capacity, then
`Map.set` the new entry with `lastUsed = now`. -/
def RenderCache.set (c : RenderCache) (now : ℕ) (key : String) (canvas : ℕ) :
    RenderCache :=
  let c1 := if MAX_ENTRIES ≤ c.entries.length then c.evictLru else c
  ⟨mapSet c1.entries key ⟨canvas, now⟩⟩

/-- `RenderCache.clear`: empty the map (memory release is unobservable). -/
def RenderCache.clear (_ : RenderCache) : RenderCache := ⟨[]⟩

/-- One observable operation on the cache, with the `Date.now()` value at
which it runs. -/
inductive CacheOp where
  | get (now : ℕ) (key : String)
  | set (now : ℕ) (key : String) (canvas : ℕ)
  | clear
deriving DecidableEq

/-- Run one operation (discarding `get`'s returned canvas). -/
def runOp (c : RenderCache) : CacheOp → RenderCache
  | .get now key => (c.get now key).1
  | .set now key canvas => c.set now key canvas
  | .clear => c.clear

/-- Run a sequence of operations against an initially empty cache. -/
def runOps (ops : List CacheOp) : RenderCache := ops.foldl runOp ⟨[]⟩

/-- A `set` whose key is non-empty (every fingerprint `makeKey` builds
contains `|` separators, hence is non-empty; the empty key is the one value
the eviction guard mistakes for "nothing to evict"). -/
def setKeyOk : CacheOp → Bool
  | .set _ key _ => key ≠ ""
  | _ => true

/-- All `set` operations in the sequence use non-empty keys. -/
def ValidOps (ops : List CacheOp) : Prop := ∀ op ∈ ops, setKeyOk op = true

instance : DecidablePred ValidOps := fun ops => by
  unfold ValidOps; infer_instance

/-! ## Frame scheduler (`frame-scheduler.ts`) -/

/-- The observable state of a `FrameScheduler`.  The frame payload type is a
parameter (`GifFrame` objects in the source); `hasCallback` records whether
`setCallback` has installed a per-frame callback, whose invocations are
modelled as emitted `(frame, index)` events. -/
structure FrameSchedulerState (Frame : Type) where
  frames : List Frame
  currentIndex : ℕ
  playing : Bool
  hasCallback : Bool
deriving DecidableEq

/-- `FrameScheduler.seek(index)`: clamp the requested index to
`[0, frames.length - 1]` (in JavaScript number arithmetic, so the upper bound
is `-1` on an empty list), store it, and — when a callback is installed and
`frames[currentIndex]` exists — invoke the callback synchronously.  The
returned `Option` is the synchronous callback invocation, if any. -/
def FrameScheduler.seek {Frame : Type} (st : FrameSchedulerState Frame)
    (index : ℤ) : FrameSchedulerState Frame × Option (Frame × ℕ) :=
  let ci : ℤ := max 0 (min index ((st.frames.length : ℤ) - 1))
  let ciN : ℕ := ci.toNat
  let st' := { st with currentIndex := ciN }
  match (if st.hasCallback then st.frames[ciN]? else none) with
  | some f => (st', some (f, ciN))
  | none => (st', none)

/-! ## Icon layout (`icon-layout.ts`) -/

/-- `TILE_SIZE_WORLD`. -/
def TILE_SIZE_WORLD : ℚ := 256

/-- `BASE_ICON_SCALE`. -/
def BASE_ICON_SCALE : ℚ := 0.5

/-- `TALL_PLANT_MUTATION_ICON_SCALE_BOOST`. -/
def TALL_PLANT_MUTATION_ICON_SCALE_BOOST : ℚ := 2

/-- `MUT_ICON_X_EXCEPT`: per-species target-anchor-X exceptions. -/
def MUT_ICON_X_EXCEPT : String → Option ℚ
  | "Pepper" => some 0.5
  | "Banana" => some 0.6
  | _ => none

/-- `MUT_ICON_Y_EXCEPT`: per-species target-anchor-Y exceptions. -/
def MUT_ICON_Y_EXCEPT : String → Option ℚ
  | "Banana" => some 0.6
  | "Carrot" => some 0.6
  | "Sunflower" => some 0.5
  | "Starweaver" => some 0.5
  | "FavaBean" => some 0.25
  | "BurrosTail" => some 0.2
  | _ => none

/-- The last `/`-separated segment of a string — `split('/')` followed by
taking the final element (the empty string when the input ends in `/` or is
empty), computed structurally over the character list. -/
def lastSegment (s : String) : String :=
  String.mk (s.data.foldl (fun acc c => if c = '/' then [] else acc ++ [c]) [])

/-- `baseNameOf`: the last `/`-separated segment of a sprite key (the empty
string when the key ends in `/` or is empty; `parts[parts.length-1] || ''`). -/
def baseNameOf (key : String) : String := lastSegment key

/-- `IconLayout`, the result record of `computeIconLayout`. -/
structure IconLayout where
  width : ℚ
  height : ℚ
  anchorX : ℚ
  anchorY : ℚ
  offsetX : ℚ
  offsetY : ℚ
  iconScale : ℚ
deriving DecidableEq

/-- `computeIconLayout` from `icon-layout.ts`: target X is the sprite's own
anchor X unless overridden; target Y is the sprite anchor Y for vertical
shapes (`height > width * 1.5`) and `0.4` otherwise, unless overridden;
offset is `(target - anchor) * dimension` per axis; icon scale is
`0.5 * min(1.5, min(w,h)/256)`, doubled for tall sprites. -/
def computeIconLayout (spriteWidth spriteHeight spriteAnchorX spriteAnchorY : ℚ)
    (spriteKey : String) (isTall : Bool) : IconLayout :=
  let width := spriteWidth
  let height := spriteHeight
  let anchorX := spriteAnchorX
  let anchorY := spriteAnchorY
  let baseName := baseNameOf spriteKey
  let targetX := (MUT_ICON_X_EXCEPT baseName).getD anchorX
  let targetY := (MUT_ICON_Y_EXCEPT baseName).getD
    (if width * 1.5 < height then anchorY else 0.4)
  let minDimension := min width height
  let scaleFactor := min 1.5 (minDimension / TILE_SIZE_WORLD)
  let iconScale0 := BASE_ICON_SCALE * scaleFactor
  let iconScale := if isTall then iconScale0 * TALL_PLANT_MUTATION_ICON_SCALE_BOOST
                   else iconScale0
  { width := width, height := height, anchorX := anchorX, anchorY := anchorY,
    offsetX := (targetX - anchorX) * width,
    offsetY := (targetY - anchorY) * height,
    iconScale := iconScale }

/-! ## GIF decoder (`decoder.ts`) -/

/-- What the third-party `GifReader` supplies for one frame: the
`frameInfo(i)` fields used by the decoder and the full-canvas RGBA buffer
produced by `decodeAndBlitFrameRGBA(i, ...)` (frame-rectangle pixels blitted,
transparent-index and out-of-rectangle pixels left at zero). -/
structure FrameInfo where
  x : ℕ
  y : ℕ
  width : ℕ
  height : ℕ
  delay : ℕ
  disposal : ℕ
  pixels : Surface

/-- The third-party `GifReader` interface consumed by `decodeGif`. -/
structure GifReaderModel where
  width : ℕ
  height : ℕ
  frames : List FrameInfo

/-- Membership of a pixel in a frame's rectangle. -/
def inFrameRect (info : FrameInfo) (p : ℕ × ℕ) : Bool :=
  info.x ≤ p.1 && p.1 < info.x + info.width &&
  info.y ≤ p.2 && p.2 < info.y + info.height

/-- `clearRect` of a frame's rectangle on a surface. -/
def clearFrameRect (s : Surface) (info : FrameInfo) : Surface :=
  fun p => if inFrameRect info p then clearPixel else s p

/-- One decoded output frame: the snapshot of the compositing canvas and the
frame's display duration in milliseconds. -/
structure GifFrame where
  canvas : Surface
  delay : ℕ

/-- The per-frame loop of `decodeGif`, threading the persistent compositing
canvas: save the canvas when disposal is 3 (restore-to-previous), pre-clear
the frame rectangle when disposal is 2 (restore-to-background), draw the
decoded frame, snapshot the canvas as the output frame, then apply this
frame's own disposal for the next iteration (2: clear the rectangle again;
3: restore the saved canvas). -/
def decodeLoop (comp : Surface) : List FrameInfo → List GifFrame
  | [] => []
  | info :: rest =>
    let delay := max (info.delay * 10) 20
    let saved : Option Surface := if info.disposal = 3 then some comp else none
    let comp1 := if info.disposal = 2 then clearFrameRect comp info else comp
    let comp2 := drawImage info.pixels comp1
    let comp3 :=
      if info.disposal = 2 then clearFrameRect comp2 info
      else match saved with
           | some s => s
           | none => comp2
    ⟨comp2, delay⟩ :: decodeLoop comp3 rest

/-- The decoded animation: logical size, output frames, loop count. -/
structure DecodedGif where
  width : ℕ
  height : ℕ
  frames : List GifFrame
  loopCount : ℕ

/-- `decodeGif` from `decoder.ts`, over the `GifReader` model: the
compositing canvas starts fully transparent. -/
def decodeGif (reader : GifReaderModel) : DecodedGif :=
  ⟨reader.width, reader.height, decodeLoop blankSurface reader.frames, 0⟩

/-! ## Slot rendering control flow (`render-cache.ts` `renderSlot`)

The pixel-level drawing performed by `renderSlot` is covered by the surface
model above; what matters for the error-handling contract is which assets are
resolved, loaded and drawn, and when the function returns `null` or rejects.
`renderSlot` is therefore embedded at trace level: the produced canvas is
represented by a record of its base source and the decoration draw
operations that were actually performed, and the asynchronous image loader
is a host-supplied function that either yields an image handle or rejects. -/

/-- A sprite-data item (`api/types.ts`): id, item type (`"frame"` for
drawable frames), its atlas URL and an optional anchor. -/
structure SpriteItem where
  id : String
  type : String
  url : String
  anchor : Option (ℚ × ℚ)
deriving DecidableEq

/-- A sprite-data category: category name and its items. -/
structure SpriteCategory where
  cat : String
  items : List SpriteItem
deriving DecidableEq

/-- The sprite-data response: a list of categories. -/
structure SpriteDataResponse where
  categories : List SpriteCategory
deriving DecidableEq

/-- A cosmetics item: id and asset URL (empty = none, JS falsiness). -/
structure CosmeticItem where
  id : String
  url : String
deriving DecidableEq

/-- A cosmetics category. -/
structure CosmeticCategory where
  cat : String
  items : List CosmeticItem
deriving DecidableEq

/-- The cosmetics response. -/
structure CosmeticsResponse where
  categories : List CosmeticCategory
deriving DecidableEq

/-- `MutationMeta` from `mutation-defs.ts`. -/
structure MutationMeta where
  hasOverlay : Bool := false
  overlayKey : Option String := none
  tallOverlayKey : Option String := none
  iconKey : Option String := none
  tallPlantIconOverride : Option String := none
  floatingIcon : Bool := false
  exclusive : Bool := false
deriving DecidableEq

/-- `MUTATION_META` from `mutation-defs.ts`. -/
def MUTATION_META : String → Option MutationMeta
  | "Gold" => some { exclusive := true }
  | "Rainbow" => some { exclusive := true }
  | "Wet" => some { hasOverlay := true, overlayKey := some "sprite/mutation/Puddle",
                    tallOverlayKey := some "sprite/mutation-overlay/WetTallPlant",
                    iconKey := some "sprite/mutation/Wet",
                    tallPlantIconOverride := some "sprite/mutation/Puddle" }
  | "Chilled" => some { hasOverlay := true, overlayKey := some "sprite/mutation/Chilled",
                        tallOverlayKey := some "sprite/mutation-overlay/ChilledTallPlant",
                        iconKey := some "sprite/mutation/Chilled" }
  | "Frozen" => some { hasOverlay := true, overlayKey := some "sprite/mutation/Frozen",
                       tallOverlayKey := some "sprite/mutation-overlay/FrozenTallPlant",
                       iconKey := some "sprite/mutation/Frozen" }
  | "Thunderstruck" => some { hasOverlay := true,
                              overlayKey := some "sprite/mutation/Thunderstruck",
                              tallOverlayKey := some "sprite/mutation-overlay/ThunderstruckTallPlant",
                              iconKey := some "sprite/mutation/Thunderstruck",
                              tallPlantIconOverride := some "sprite/mutation/ThunderstruckGround" }
  | "Dawnlit" => some { iconKey := some "sprite/mutation/Dawnlit", floatingIcon := true }
  | "Ambershine" => some { iconKey := some "sprite/mutation/Amberlit", floatingIcon := true }
  | "Dawncharged" => some { iconKey := some "sprite/mutation/Dawncharged", floatingIcon := true }
  | "Ambercharged" => some { iconKey := some "sprite/mutation/Ambercharged", floatingIcon := true }
  | _ => none

/-- Substring search over character lists (structural, so that concrete
instances compute by `decide`). -/
def hasSubstring (pat : List Char) : List Char → Bool
  | [] => pat.isEmpty
  | c :: cs => pat.isPrefixOf (c :: cs) || hasSubstring pat cs

/-- `isTallKey`: the `/tall-?plant/i` test on a sprite key — the
lower-cased key contains `tall-plant` or `tallplant`. -/
def isTallKey (key : String) : Bool :=
  hasSubstring "tall-plant".data (key.data.map Char.toLower) ||
  hasSubstring "tallplant".data (key.data.map Char.toLower)

/-- `mutationAliases` from `icon-layout.ts`. -/
def mutationAliases : String → List String
  | "Ambershine" => ["Ambershine", "Amberlit"]
  | "Dawncharged" => ["Dawncharged", "Dawnbound"]
  | "Ambercharged" => ["Ambercharged", "Amberbound"]
  | m => [m]

/-- `getSpriteIdSet`: the ids of all sprite-data items (the module-level
memoisation of this set is unobservable). -/
def getSpriteIdSet (sd : Option SpriteDataResponse) : List String :=
  match sd with
  | none => []
  | some d => d.categories.flatMap (fun c => c.items.map SpriteItem.id)

/-- `findIconKey` from `icon-layout.ts`: tall-plant override first, then per
alias the tall-variant keys, then the six standard naming patterns; the
first candidate present in the sprite-id set wins. -/
def findIconKey (sd : Option SpriteDataResponse) (itemKey mutName : String)
    (isTall : Bool) (meta : MutationMeta) : Option String :=
  if mutName = "" then none
  else
    let knownIds := getSpriteIdSet sd
    let override :=
      match meta.tallPlantIconOverride with
      | some ov => if isTall && knownIds.contains ov then some ov else none
      | none => none
    match override with
    | some ov => some ov
    | none =>
      let base := baseNameOf itemKey
      let candidates := (mutationAliases mutName).flatMap (fun name =>
        (if isTall then
           ["sprite/mutation-overlay/" ++ name ++ "TallPlantIcon",
            "sprite/mutation-overlay/" ++ name ++ "TallPlant"]
         else []) ++
        ["sprite/mutation/" ++ name ++ "Icon",
         "sprite/mutation/" ++ name,
         "sprite/mutation/" ++ name ++ base,
         "sprite/mutation/" ++ name ++ "-" ++ base,
         "sprite/mutation/" ++ name ++ "_" ++ base,
         "sprite/mutation/" ++ name ++ "/" ++ base])
      candidates.find? (fun k => knownIds.contains k)

/-- `getIconAnchor` from `icon-layout.ts`: the anchor of the first
sprite-data frame item with the given id, defaulting to `(0.5, 0.5)`. -/
def getIconAnchor (sd : Option SpriteDataResponse) (iconId : String) : ℚ × ℚ :=
  match sd with
  | none => (0.5, 0.5)
  | some d =>
    match (d.categories.flatMap (fun c => c.items)).find?
        (fun it => it.id == iconId && it.type == "frame") with
    | some it => ((it.anchor.map Prod.fst).getD 0.5, (it.anchor.map Prod.snd).getD 0.5)
    | none => (0.5, 0.5)

/-- `findSpriteUrl` from `render-cache.ts`: locate the first frame item with
the given id and rebuild its individual PNG URL from its category, base name
and version hash.  `matchVersion` is the host regex extracting a `?v=` or
`/version/` hash from the item's atlas URL. -/
def findSpriteUrl (sd : Option SpriteDataResponse) (gameVersion : Option String)
    (matchVersion : String → Option String) (spriteId : String) : Option String :=
  match sd with
  | none => none
  | some d =>
    let name := lastSegment spriteId
    if name = "" then none
    else
      match (d.categories.flatMap (fun c => c.items.map (fun it => (c.cat, it)))).find?
          (fun ci => ci.2.id == spriteId && ci.2.type == "frame") with
      | none => none
      | some ci =>
        let version := ((matchVersion ci.2.url).getD (gameVersion.getD ""))
        some ("https://mg-api.ariedam.fr/assets/sprites/" ++ ci.1 ++ "/" ++ name ++ ".png"
              ++ (if version ≠ "" then "?v=" ++ version else ""))

/-- `TALL_PLANT_ANCHORS` from `render-cache.ts`. -/
def TALL_PLANT_ANCHORS : String → Option (ℚ × ℚ)
  | "sprite/tall-plant/Bamboo" => some (0.519573, 0.964063)
  | "sprite/tall-plant/Cactus" => some (0.517937, 0.952344)
  | _ => none

/-- `getSpriteFrameAnchor` from `render-cache.ts`: hardcoded tall-plant
anchors first; then, per sprite-data category, the first item with matching
id and frame type (skipping the rest of that category); tall-plant keys fall
back to `(0.5, 0.96)`, everything else to `(0.5, 0.5)`. -/
def getSpriteFrameAnchor (sd : Option SpriteDataResponse) (spriteId : String) :
    ℚ × ℚ :=
  match TALL_PLANT_ANCHORS spriteId with
  | some a => a
  | none =>
    let fromData :=
      match sd with
      | none => none
      | some d =>
        (d.categories.filterMap (fun c =>
          (c.items.find? (fun it => it.id == spriteId && it.type == "frame")).bind
            (fun it => it.anchor))).head?
    match fromData with
    | some a => a
    | none => if isTallKey spriteId then (0.5, 0.96) else (0.5, 0.5)

/-- One decoded GIF frame attached to a slot (`Slot.gifFrames` entries); the
canvas is a handle. -/
structure GifFrameRef where
  canvas : ℕ
  delay : ℕ
deriving DecidableEq

/-- Slot options. -/
structure SlotOptions where
  icons : Bool
  overlays : Bool
deriving DecidableEq

/-- Custom tint of a slot. -/
structure CustomTint where
  color : String
  opacity : ℚ
deriving DecidableEq

/-- `Slot` from `state/store.ts` (the fields `renderSlot` reads).  An absent
source URL is the empty string, which is falsy in JavaScript.
`cosmeticLayers` is the category-to-cosmetic-id record. -/
structure Slot where
  id : String
  type : String
  spriteKey : String
  spriteUrl : String
  mutations : List String
  options : SlotOptions
  customTint : CustomTint
  scale : ℚ
  rotation : ℚ
  visible : Bool
  locked : Bool
  cosmeticLayers : Option (String → Option String)
  gifFrames : Option (List GifFrameRef)
  isAnimated : Bool

/-- The default ascending sort of JavaScript's `Array.prototype.sort`
(string comparison), used by `makeKey` on the mutation id list. -/
def jsStringSort (l : List String) : List String :=
  List.insertionSort (fun a b : String => a ≤ b) l

/-- `RenderCache.makeKey` from `render-cache.ts`: the fingerprint string
(numbers rendered by `toString`; the exact numeral text is irrelevant here
because cache contents are a parameter of the model). -/
def RenderCache.makeKey (spriteUrl : String) (mutations : List String)
    (icons overlays : Bool) (scale rotation : ℚ) (frameIndex : Option ℤ) :
    String :=
  spriteUrl ++ "|" ++ String.intercalate "," (jsStringSort mutations) ++ "|"
    ++ toString icons ++ "|" ++ toString overlays ++ "|" ++ toString scale
    ++ "|" ++ toString rotation ++ "|" ++ toString (frameIndex.getD 0)

/-- The base raster of a rendered slot: a decoded animation frame or a
loaded static image. -/
inductive BaseSource where
  | gifFrame (canvas : ℕ)
  | image (img : ℕ)
deriving DecidableEq

/-- Trace-level result of `renderSlot`: the base source, the names of the
mutation pipeline steps applied to it, and the decoration draw operations
(icon URL with z-order; overlay URLs; cosmetic layer URLs) that were
performed. -/
structure RenderedCanvas where
  base : BaseSource
  mutationsApplied : List String
  icons : List (String × ℤ)
  overlays : List String
  cosmetics : List String
deriving DecidableEq

/-- The host environment of one `renderSlot` call: the sprite loader (an
image handle, or a rejected load), the render cache's current lookup
function, the metadata tables, and the version-regex matcher. -/
structure RenderEnv where
  load : String → Except String ℕ
  cacheLookup : String → Option RenderedCanvas
  spriteData : Option SpriteDataResponse
  cosmeticsData : Option CosmeticsResponse
  gameVersion : Option String
  matchVersion : String → Option String

/-- The mutation-icon loop of `renderSlot` (lines 147-180): per active
mutation, skip when there is no metadata, when a tall plant uses a texture
overlay with no behind-icon override, when no icon key or URL resolves, or
when the icon image fails to load; otherwise record the draw with its
z-order (floating 10, tall behind-icon -1, regular 2). -/
def collectIcons (env : RenderEnv) (slot : Slot) (tall : Bool) :
    List (String × ℤ) :=
  (resolveActiveMutations slot.mutations).filterMap (fun mutId =>
    match MUTATION_META mutId with
    | none => none
    | some meta =>
      if tall && meta.tallOverlayKey.isSome && meta.tallPlantIconOverride.isNone then
        none
      else
        match findIconKey env.spriteData slot.spriteKey mutId tall meta with
        | none => none
        | some iconId =>
          match findSpriteUrl env.spriteData env.gameVersion env.matchVersion iconId with
          | none => none
          | some iconUrl =>
            match env.load iconUrl with
            | .error _ => none
            | .ok _ =>
              some (iconUrl, if meta.floatingIcon then (10 : ℤ)
                             else if tall then -1 else 2))

/-- The tall-plant texture-overlay loop of `renderSlot` (lines 189-263): per
active mutation with a tall overlay key, skip when no URL resolves or the
overlay fails to load, otherwise record the masked overlay draw (z = 3). -/
def collectOverlays (env : RenderEnv) (slot : Slot) : List String :=
  (resolveActiveMutations slot.mutations).filterMap (fun mutId =>
    match (MUTATION_META mutId).bind MutationMeta.tallOverlayKey with
    | none => none
    | some tallKey =>
      match findSpriteUrl env.spriteData env.gameVersion env.matchVersion tallKey with
      | none => none
      | some overlayUrl =>
        match env.load overlayUrl with
        | .error _ => none
        | .ok _ => some overlayUrl)

/-- The fixed cosmetic category draw order of `renderSlot` (line 315). -/
def cosmeticLayerOrder : List String :=
  ["Default", "Mid", "Bottom", "Top", "Expression", "FaceProp", "Status", "Banner"]

/-- The cosmetic-layer loop of `renderSlot` (lines 313-334): per category in
the fixed order, skip when no cosmetic is assigned, no cosmetics data is
loaded, the item or its URL is missing, or the layer image fails to load;
otherwise record the draw. -/
def collectCosmetics (env : RenderEnv) (layers : String → Option String) :
    List String :=
  cosmeticLayerOrder.filterMap (fun category =>
    match layers category with
    | none => none
    | some cosmeticId =>
      match env.cosmeticsData with
      | none => none
      | some cd =>
        match (cd.categories.find? (fun c => c.cat == category)).bind
            (fun c => c.items.find? (fun i => i.id == cosmeticId)) with
        | none => none
        | some item =>
          if item.url = "" then none
          else
            match env.load item.url with
            | .error _ => none
            | .ok _ => some item.url)

/-- `renderSlot` from `render-cache.ts`, at trace level: return `null` when
the slot has no source URL; otherwise serve from the cache when the
fingerprint hits; otherwise resolve the base raster (the clamped animation
frame for an animated slot with frames, else the loaded sprite image — the
one load whose failure propagates), apply the mutation pipeline, collect the
icon/overlay draws when enabled, and the cosmetic layers for cosmetic slots. -/
def renderSlot (env : RenderEnv) (slot : Slot) (gifFrameIndex : Option ℤ) :
    Except String (Option RenderedCanvas) :=
  if slot.spriteUrl = "" then .ok none
  else
    let frameIdx : ℤ :=
      if slot.isAnimated && slot.gifFrames.isSome then gifFrameIndex.getD 0 else -1
    let cacheKey :=
      RenderCache.makeKey slot.spriteUrl slot.mutations slot.options.icons
          slot.options.overlays slot.scale slot.rotation none
        ++ "|" ++ slot.customTint.color ++ ":" ++ toString slot.customTint.opacity
        ++ "|f" ++ toString frameIdx
    match env.cacheLookup cacheKey with
    | some cached => .ok (some cached)
    | none =>
      let loadBase : Except String BaseSource :=
        (env.load slot.spriteUrl).map BaseSource.image
      let baseE : Except String BaseSource :=
        match slot.gifFrames with
        | some fs =>
          if slot.isAnimated && decide (0 < fs.length) then
            let fi := (max 0 (min frameIdx ((fs.length : ℤ) - 1))).toNat
            .ok (.gifFrame (((fs.get? fi).map GifFrameRef.canvas).getD 0))
          else loadBase
        | none => loadBase
      match baseE with
      | .error e => .error e
      | .ok base =>
        let tall := isTallKey slot.spriteKey
        let mutationsApplied :=
          (resolveActiveMutations slot.mutations).filter
            (fun id => (FILTERS id).isSome)
          ++ (if 0 < slot.customTint.opacity then ["Custom"] else [])
        let icons :=
          if slot.options.icons || (tall && slot.options.overlays) then
            (if slot.options.icons then collectIcons env slot tall else [])
          else []
        let overlays :=
          if slot.options.icons || (tall && slot.options.overlays) then
            (if tall && slot.options.overlays then collectOverlays env slot else [])
          else []
        let cosmetics :=
          match slot.cosmeticLayers with
          | some layers =>
            if slot.type = "cosmetic" then collectCosmetics env layers else []
          | none => []
        .ok (some ⟨base, mutationsApplied, icons, overlays, cosmetics⟩)

/-! ## Support definitions for concrete checks -/

/-- The comparator of `resolveActiveMutations` is total. -/
instance : IsTotal String renderOrderLe :=
  ⟨fun a b => Nat.le_total (renderOrderKey a) (renderOrderKey b)⟩

/-- The comparator of `resolveActiveMutations` is transitive. -/
instance : IsTrans String renderOrderLe :=
  ⟨fun _ _ _ h1 h2 => Nat.le_trans h1 h2⟩

/-- The i-th distinct cache key of the overflow scenario (i+1 letters `a`;
keys of distinct lengths are trivially distinct). -/
def c4Key (i : ℕ) : String := String.mk (List.replicate (i + 1) 'a')

/-- The 300 cache fingerprints of the overflow scenario: the empty string
followed by 299 distinct non-empty keys. -/
def c4BadOps : List CacheOp :=
  CacheOp.set 0 "" 0 ::
    (List.range 299).map (fun i => CacheOp.set 1 (c4Key i) 0)
    ++ [CacheOp.set 2 "zz" 0]

/-- Concrete backend for checks: an all-red gradient rasteriser, a zero
mixing function, and a context supporting only the `color` blend mode. -/
def c2Backend : Backend :=
  ⟨["color"], fun _ _ _ => fun _ => ⟨1, 0, 0, 1⟩, fun _ _ _ => (0, 0, 0)⟩

/-- Concrete base sprite for checks: a single opaque white pixel at (0,0) on
a transparent canvas. -/
def c2Base : Surface := fun p => if p = (0, 0) then ⟨1, 1, 1, 1⟩ else clearPixel

/-- The `FILTERS.Wet` flat tint, spelled out for concrete checks. -/
def c2WetFilter : FilterDef :=
  { op := "source-atop", colors := [rgb255 50 180 200], a := some 0.25 }

/-- The `FILTERS.Rainbow` masked filter, spelled out for concrete checks. -/
def c2RainbowFilter : FilterDef :=
  { op := "color", colors := rainbowColors, ang := some 130, angTall := some 0,
    masked := true }

/-- Frame 1 of the spec's three-frame example: fully transparent. -/
def c5Frame1 : FrameInfo :=
  { x := 0, y := 0, width := 10, height := 10, delay := 10, disposal := 0,
    pixels := blankSurface }

/-- Frame 2 of the example: a fully opaque red 4×4 square at (2,2), with
disposal 2 (restore to background). -/
def c5Frame2 : FrameInfo :=
  { x := 2, y := 2, width := 4, height := 4, delay := 10, disposal := 2,
    pixels := fun p =>
      if 2 ≤ p.1 ∧ p.1 < 6 ∧ 2 ≤ p.2 ∧ p.2 < 6 then rgb255 255 0 0
      else clearPixel }

/-- Frame 3 of the example: fully transparent again. -/
def c5Frame3 : FrameInfo :=
  { x := 0, y := 0, width := 10, height := 10, delay := 10, disposal := 0,
    pixels := blankSurface }

/-- The spec's three-frame example animation on a 10×10 transparent canvas. -/
def c5Reader : GifReaderModel :=
  { width := 10, height := 10, frames := [c5Frame1, c5Frame2, c5Frame3] }

/-- Concrete render environment for checks: the base sprite URL loads, every
other asset URL rejects, the cache is empty and no metadata is loaded. -/
def c9Env : RenderEnv :=
  { load := fun u => if u = "https://host/base.png" then .ok 1 else .error "network",
    cacheLookup := fun _ => none,
    spriteData := none,
    cosmeticsData := none,
    gameVersion := none,
    matchVersion := fun _ => none }

/-- Concrete slot for checks: a static sprite slot with icons and overlays
enabled and one active mutation, whose decoration assets all fail to load. -/
def c9Slot : Slot :=
  { id := "slot-0", type := "sprite", spriteKey := "sprite/crops/Bamboo",
    spriteUrl := "https://host/base.png", mutations := ["Wet"],
    options := { icons := true, overlays := true },
    customTint := { color := "#ffffff", opacity := 0 },
    scale := 1, rotation := 0, visible := true, locked := false,
    cosmeticLayers := none, gifFrames := none, isAnimated := false }

/-! ## Theorems -/

/-- C1: for every base surface and every non-masked flat-tint step with an
opaque tint colour `t` and opacity `α` in `[0,1]`, the flat-tint blend gives
`result.rgb = t·α + base.rgb·(1-α)` and `result.a = base.a` at every pixel
(destination alpha preserved exactly, hence never increased). -/
theorem flat_tint_blend_spec (base : Surface) (f : FilterDef) (t : RGBA)
    (α : ℚ) (p : ℕ × ℕ) (_hmask : f.masked = false)
    (hc : f.colors.headD whitePixel = t) (ht : t.a = 1) (ha : f.a = some α)
    (_h0 : 0 ≤ α) (_h1 : α ≤ 1) :
    (applyFlatTint base f p).r = t.r * α + (base p).r * (1 - α) ∧
    (applyFlatTint base f p).g = t.g * α + (base p).g * (1 - α) ∧
    (applyFlatTint base f p).b = t.b * α + (base p).b * (1 - α) ∧
    (applyFlatTint base f p).a = (base p).a := by
  refine ⟨?_, ?_, ?_, ?_⟩ <;>
    simp only [applyFlatTint, sourceAtop, hc, ha, ht, Option.getD_some, one_mul]

/-- Witness for C1: the `Wet` flat tint (opacity 0.25) on a concrete pixel. -/
theorem flat_tint_blend_spec_witness :
    c2WetFilter.masked = false ∧
    c2WetFilter.colors.headD whitePixel = rgb255 50 180 200 ∧
    (rgb255 50 180 200).a = 1 ∧ c2WetFilter.a = some 0.25 ∧
    (0 : ℚ) ≤ 0.25 ∧ (0.25 : ℚ) ≤ 1 ∧
    ((applyFlatTint c2Base c2WetFilter (0, 0)).r =
        (rgb255 50 180 200).r * 0.25 + (c2Base (0, 0)).r * (1 - 0.25) ∧
      (applyFlatTint c2Base c2WetFilter (0, 0)).g =
        (rgb255 50 180 200).g * 0.25 + (c2Base (0, 0)).g * (1 - 0.25) ∧
      (applyFlatTint c2Base c2WetFilter (0, 0)).b =
        (rgb255 50 180 200).b * 0.25 + (c2Base (0, 0)).b * (1 - 0.25) ∧
      (applyFlatTint c2Base c2WetFilter (0, 0)).a = (c2Base (0, 0)).a) :=
  ⟨rfl, rfl, rfl, rfl, by norm_num, by norm_num,
   flat_tint_blend_spec c2Base c2WetFilter (rgb255 50 180 200) 0.25 (0, 0)
     rfl rfl rfl rfl (by norm_num) (by norm_num)⟩

/-- The masked-filter step leaves the accumulated canvas's alpha unchanged
(its final composite is `source-atop`). -/
theorem applyMaskedFilter_alpha (be : Backend) (ctx originalBase : Surface)
    (f : FilterDef) (isTall : Bool) (p : ℕ × ℕ) :
    ((applyMaskedFilter be ctx originalBase f isTall) p).a = (ctx p).a := rfl

/-- The flat-tint step leaves the canvas's alpha unchanged. -/
theorem applyFlatTint_alpha (base : Surface) (f : FilterDef) (p : ℕ × ℕ) :
    ((applyFlatTint base f) p).a = (base p).a := rfl

/-- Every pipeline step leaves the canvas's alpha unchanged. -/
theorem applyStep_alpha (be : Backend) (originalBase : Surface) (isTall : Bool)
    (acc : Surface) (f : FilterDef) (p : ℕ × ℕ) :
    ((applyStep be originalBase isTall acc f) p).a = (acc p).a := by
  unfold applyStep
  split
  · exact applyMaskedFilter_alpha ..
  · exact applyFlatTint_alpha ..

/-- Running any list of pipeline steps preserves the snapshot's alpha. -/
theorem runSteps_alpha (be : Backend) (originalBase : Surface) (isTall : Bool)
    (steps : List FilterDef) (p : ℕ × ℕ) :
    ((runSteps be originalBase isTall steps) p).a = (originalBase p).a := by
  suffices h : ∀ acc : Surface,
      ((steps.foldl (applyStep be originalBase isTall) acc) p).a = (acc p).a by
    exact h originalBase
  induction steps with
  | nil => intro acc; rfl
  | cons f fs ih =>
    intro acc
    rw [List.foldl_cons, ih]
    exact applyStep_alpha ..

/-- C2: a masked mutation step applied by the pipeline (after any prefix of
earlier steps) leaves every pixel whose pre-mutation snapshot alpha is 0 at
alpha 0. -/
theorem masked_step_preserves_zero_alpha (be : Backend) (originalBase : Surface)
    (prev : List FilterDef) (f : FilterDef) (isTall : Bool) (p : ℕ × ℕ)
    (h0 : (originalBase p).a = 0) :
    ((applyMaskedFilter be (runSteps be originalBase isTall prev) originalBase
        f isTall) p).a = 0 := by
  rw [applyMaskedFilter_alpha, runSteps_alpha]
  exact h0

/-- Witness for C2: the Rainbow masked filter after a Wet flat tint, at a
pixel that is transparent in the snapshot. -/
theorem masked_step_preserves_zero_alpha_witness :
    (c2Base (1, 0)).a = 0 ∧
    ((applyMaskedFilter c2Backend (runSteps c2Backend c2Base false [c2WetFilter])
        c2Base c2RainbowFilter false) (1, 0)).a = 0 :=
  ⟨rfl, masked_step_preserves_zero_alpha c2Backend c2Base [c2WetFilter]
    c2RainbowFilter false (1, 0) rfl⟩

/-- C6: on a non-empty frame list with a registered callback, `seek(i)`
clamps `i` into `[0, n-1]`, stores it, and synchronously fires the callback
with the clamped frame and index, whatever the play state. -/
theorem seek_clamps_and_fires {Frame : Type} (st : FrameSchedulerState Frame)
    (i : ℤ) (hne : st.frames ≠ []) (hcb : st.hasCallback = true) :
    ∃ f, st.frames[(max 0 (min i ((st.frames.length : ℤ) - 1))).toNat]? = some f ∧
      (FrameScheduler.seek st i).1.currentIndex =
        (max 0 (min i ((st.frames.length : ℤ) - 1))).toNat ∧
      (FrameScheduler.seek st i).2 =
        some (f, (max 0 (min i ((st.frames.length : ℤ) - 1))).toNat) ∧
      (FrameScheduler.seek st i).1.playing = st.playing ∧
      (max 0 (min i ((st.frames.length : ℤ) - 1))).toNat < st.frames.length := by
  have hn : 0 < st.frames.length := List.length_pos.mpr hne
  have hlt : (max 0 (min i ((st.frames.length : ℤ) - 1))).toNat < st.frames.length := by
    have h1 : min i ((st.frames.length : ℤ) - 1) ≤ (st.frames.length : ℤ) - 1 :=
      min_le_right _ _
    omega
  obtain ⟨f, hf⟩ : ∃ f,
      st.frames[(max 0 (min i ((st.frames.length : ℤ) - 1))).toNat]? = some f :=
    ⟨_, List.getElem?_eq_getElem hlt⟩
  refine ⟨f, hf, ?_, ?_, ?_, hlt⟩ <;>
    simp [FrameScheduler.seek, hcb, hf]

/-- C10: on an empty frame list, `seek(i)` fires no callback (the frame
lookup misses) and leaves the current index at 0 (the clamp bound is `-1`). -/
theorem seek_empty_no_callback {Frame : Type} (st : FrameSchedulerState Frame)
    (i : ℤ) (h : st.frames = []) :
    (FrameScheduler.seek st i).2 = none ∧
    (FrameScheduler.seek st i).1.currentIndex = 0 := by
  have hclamp : (max 0 (min i ((st.frames.length : ℤ) - 1))).toNat = 0 := by
    rw [h]
    simp only [List.length_nil]
    omega
  constructor <;> simp [FrameScheduler.seek, h, hclamp]

/-- Witness for C10: seeking to 7 on an empty scheduler. -/
theorem seek_empty_no_callback_witness :
    (FrameScheduler.seek (⟨[], 0, true, true⟩ : FrameSchedulerState ℕ) 7).2 = none ∧
    (FrameScheduler.seek (⟨[], 0, true, true⟩ : FrameSchedulerState ℕ) 7).1.currentIndex = 0 :=
  seek_empty_no_callback ⟨[], 0, true, true⟩ 7 rfl

/-- Witness for C6: `seek(1)` on a playing three-frame scheduler fires the
callback synchronously with frame index 1. -/
theorem seek_clamps_and_fires_witness :
    ([10, 20, 30] : List ℕ) ≠ [] ∧
    (FrameSchedulerState.hasCallback ⟨[10, 20, 30], 0, true, true⟩ = true) ∧
    ∃ f, ([10, 20, 30] : List ℕ)[(max 0 (min 1 ((3 : ℤ) - 1))).toNat]? = some f ∧
      (FrameScheduler.seek (⟨[10, 20, 30], 0, true, true⟩ : FrameSchedulerState ℕ) 1).1.currentIndex =
        (max 0 (min 1 ((3 : ℤ) - 1))).toNat ∧
      (FrameScheduler.seek (⟨[10, 20, 30], 0, true, true⟩ : FrameSchedulerState ℕ) 1).2 =
        some (f, (max 0 (min 1 ((3 : ℤ) - 1))).toNat) ∧
      (FrameScheduler.seek (⟨[10, 20, 30], 0, true, true⟩ : FrameSchedulerState ℕ) 1).1.playing =
        (⟨[10, 20, 30], 0, true, true⟩ : FrameSchedulerState ℕ).playing ∧
      (max 0 (min 1 ((3 : ℤ) - 1))).toNat < ([10, 20, 30] : List ℕ).length :=
  ⟨by decide, rfl,
   seek_clamps_and_fires (⟨[10, 20, 30], 0, true, true⟩ : FrameSchedulerState ℕ) 1
     (by decide) rfl⟩

/-- C7: for a sprite whose base name is in neither exception table, the icon
layout echoes the sprite's geometry, target X is the sprite's anchor X
(offset X = 0 form), target Y is the sprite's anchor Y for vertical shapes
(`h > 1.5·w`) and 0.4 otherwise, the offset is `(target - anchor) ×
dimension` per axis, and the icon scale is `0.5 · min(1.5, min(w,h)/256)`,
doubled for tall sprites. -/
theorem computeIconLayout_spec (w h ax ay : ℚ) (key : String) (tall : Bool)
    (hx : MUT_ICON_X_EXCEPT (baseNameOf key) = none)
    (hy : MUT_ICON_Y_EXCEPT (baseNameOf key) = none) :
    (computeIconLayout w h ax ay key tall).width = w ∧
    (computeIconLayout w h ax ay key tall).height = h ∧
    (computeIconLayout w h ax ay key tall).anchorX = ax ∧
    (computeIconLayout w h ax ay key tall).anchorY = ay ∧
    (computeIconLayout w h ax ay key tall).offsetX = (ax - ax) * w ∧
    (computeIconLayout w h ax ay key tall).offsetY =
      ((if w * 1.5 < h then ay else 0.4) - ay) * h ∧
    (computeIconLayout w h ax ay key tall).iconScale =
      (if tall then 2 else 1) * (0.5 * min 1.5 (min w h / 256)) := by
  simp only [computeIconLayout, hx, hy, Option.getD_none, TILE_SIZE_WORLD,
    BASE_ICON_SCALE, TALL_PLANT_MUTATION_ICON_SCALE_BOOST, true_and]
  by_cases htall : tall = true
  · simp only [htall, if_true]; ring
  · simp only [Bool.not_eq_true] at htall
    simp only [htall, Bool.false_eq_true, if_false]; ring

/-- Witness for C7: a 100×300 sprite (ratio 3 > 1.5) with anchor (0.5, 0.9)
gets target Y = its own anchor Y = 0.9 (offset Y = 0), not 0.4. -/
theorem computeIconLayout_spec_witness :
    MUT_ICON_X_EXCEPT (baseNameOf "sprite/crops/Fern") = none ∧
    MUT_ICON_Y_EXCEPT (baseNameOf "sprite/crops/Fern") = none ∧
    ((computeIconLayout 100 300 0.5 0.9 "sprite/crops/Fern" false).width = 100 ∧
      (computeIconLayout 100 300 0.5 0.9 "sprite/crops/Fern" false).height = 300 ∧
      (computeIconLayout 100 300 0.5 0.9 "sprite/crops/Fern" false).anchorX = 0.5 ∧
      (computeIconLayout 100 300 0.5 0.9 "sprite/crops/Fern" false).anchorY = 0.9 ∧
      (computeIconLayout 100 300 0.5 0.9 "sprite/crops/Fern" false).offsetX =
        (0.5 - 0.5) * 100 ∧
      (computeIconLayout 100 300 0.5 0.9 "sprite/crops/Fern" false).offsetY =
        ((if (100 : ℚ) * 1.5 < 300 then 0.9 else 0.4) - 0.9) * 300 ∧
      (computeIconLayout 100 300 0.5 0.9 "sprite/crops/Fern" false).iconScale =
        (if false then 2 else 1) * (0.5 * min 1.5 (min (100 : ℚ) 300 / 256))) :=
  ⟨by decide, by decide,
   computeIconLayout_spec 100 300 0.5 0.9 "sprite/crops/Fern" false (by decide)
     (by decide)⟩

/-- Counterexample for C8: with only `color` supported and `hue` requested,
the spec's fallback order demands `color`, but the code's fallback chain
never consults the color/hue/saturation family and lands on `source-atop`. -/
theorem pickBlendOp_cex :
    pickBlendOp ["color"] "hue" = "source-atop" ∧
    pickBlendOp ["color"] "hue" ≠ "color" := by
  constructor <;> decide

/-- C8 (amended): `pickBlendOp` returns the requested operator when it is
supported, and otherwise the first supported operator in the order
overlay → screen → lighter, defaulting to the flat `source-atop` operator;
the color/hue/saturation family is never used as a fallback target. -/
theorem pickBlendOp_fallback (supported : List String) (desired : String) :
    pickBlendOp supported desired =
      if supported.contains desired then desired
      else ((["overlay", "screen", "lighter"].find?
              (fun op => supported.contains op)).getD "source-atop") := by
  by_cases h1 : desired ∈ supported
  · simp [pickBlendOp, h1]
  · by_cases h2 : "overlay" ∈ supported
    · simp [pickBlendOp, List.find?, h1, h2]
    · by_cases h3 : "screen" ∈ supported
      · simp [pickBlendOp, List.find?, h1, h2, h3]
      · by_cases h4 : "lighter" ∈ supported
        · simp [pickBlendOp, List.find?, h1, h2, h3, h4]
        · simp [pickBlendOp, List.find?, h1, h2, h3, h4]

/-- Counterexample for C3: two distinct unknown ids are returned in their
input order (stable sort), so permuting them permutes the output. -/
theorem resolveActiveMutations_cex :
    (["Aurora", "Blight"] : List String).Perm ["Blight", "Aurora"] ∧
    resolveActiveMutations ["Aurora", "Blight"] ≠
      resolveActiveMutations ["Blight", "Aurora"] :=
  ⟨List.Perm.swap "Blight" "Aurora" [], by decide⟩

/-- C3 (amended): on inputs drawn from the known mutation ids,
`resolveActiveMutations` is permutation-invariant; on any input it returns a
permutation of the input ordered by the fixed rendering order (unknown ids
all share a key after every known id, and keep their input order). -/
theorem resolveActiveMutations_spec (l₁ l₂ : List String) (hp : l₁.Perm l₂)
    (hk : ∀ s ∈ l₁, s ∈ knownMutationIds) :
    resolveActiveMutations l₁ = resolveActiveMutations l₂ ∧
    (resolveActiveMutations l₁).Sorted renderOrderLe ∧
    (resolveActiveMutations l₁).Perm l₁ := by
  have hinj : ∀ a ∈ knownMutationIds, ∀ b ∈ knownMutationIds,
      renderOrderKey a = renderOrderKey b → a = b := by decide
  have hs1 := List.sorted_insertionSort renderOrderLe l₁
  have hs2 := List.sorted_insertionSort renderOrderLe l₂
  have hperm1 : List.Perm (resolveActiveMutations l₁) l₁ :=
    List.perm_insertionSort renderOrderLe l₁
  have hperm2 : List.Perm (resolveActiveMutations l₂) l₂ :=
    List.perm_insertionSort renderOrderLe l₂
  refine ⟨?_, hs1, hperm1⟩
  have hk2 : ∀ s ∈ l₂, s ∈ knownMutationIds := fun s hs => hk s (hp.mem_iff.mpr hs)
  haveI : IsAntisymm String
      (fun a b => renderOrderKey a < renderOrderKey b ∨ a = b) := by
    constructor
    intro a b h1 h2
    rcases h1 with h1 | h1
    · rcases h2 with h2 | h2
      · omega
      · exact h2.symm
    · exact h1
  have sorted1 : (resolveActiveMutations l₁).Sorted
      (fun a b => renderOrderKey a < renderOrderKey b ∨ a = b) := by
    refine List.Pairwise.imp_of_mem ?_ hs1
    intro a b ha hb hab
    have ha' : a ∈ knownMutationIds := hk a (hperm1.mem_iff.mp ha)
    have hb' : b ∈ knownMutationIds := hk b (hperm1.mem_iff.mp hb)
    rcases Nat.lt_or_ge (renderOrderKey a) (renderOrderKey b) with h | h
    · exact Or.inl h
    · exact Or.inr (hinj a ha' b hb' (Nat.le_antisymm hab h))
  have sorted2 : (resolveActiveMutations l₂).Sorted
      (fun a b => renderOrderKey a < renderOrderKey b ∨ a = b) := by
    refine List.Pairwise.imp_of_mem ?_ hs2
    intro a b ha hb hab
    have ha' : a ∈ knownMutationIds := hk2 a (hperm2.mem_iff.mp ha)
    have hb' : b ∈ knownMutationIds := hk2 b (hperm2.mem_iff.mp hb)
    rcases Nat.lt_or_ge (renderOrderKey a) (renderOrderKey b) with h | h
    · exact Or.inl h
    · exact Or.inr (hinj a ha' b hb' (Nat.le_antisymm hab h))
  exact List.eq_of_perm_of_sorted (hperm1.trans (hp.trans hperm2.symm)) sorted1 sorted2

/-- Witness for C3: two permutations of {Rainbow, Gold, Wet} resolve to the
same sequence, sorted by render order and a permutation of the input. -/
theorem resolveActiveMutations_spec_witness :
    (["Rainbow", "Gold", "Wet"] : List String).Perm ["Wet", "Rainbow", "Gold"] ∧
    (∀ s ∈ (["Rainbow", "Gold", "Wet"] : List String), s ∈ knownMutationIds) ∧
    (resolveActiveMutations ["Rainbow", "Gold", "Wet"] =
        resolveActiveMutations ["Wet", "Rainbow", "Gold"] ∧
      (resolveActiveMutations ["Rainbow", "Gold", "Wet"]).Sorted renderOrderLe ∧
      (resolveActiveMutations ["Rainbow", "Gold", "Wet"]).Perm
        ["Rainbow", "Gold", "Wet"]) :=
  ⟨by decide, by decide,
   resolveActiveMutations_spec ["Rainbow", "Gold", "Wet"]
     ["Wet", "Rainbow", "Gold"] (by decide) (by decide)⟩

/-- Clearing a rectangle keeps an already-transparent pixel transparent. -/
theorem clearFrameRect_clear_point (s : Surface) (info : FrameInfo) (p : ℕ × ℕ)
    (h : s p = clearPixel) : clearFrameRect s info p = clearPixel := by
  unfold clearFrameRect
  split <;> simp [h]

/-- Clearing a rectangle makes every pixel inside it transparent. -/
theorem clearFrameRect_inside (s : Surface) (info : FrameInfo) (p : ℕ × ℕ)
    (hp : inFrameRect info p = true) : clearFrameRect s info p = clearPixel := by
  unfold clearFrameRect
  simp [hp]

/-- Compositing an alpha-zero source pixel over a transparent destination
yields the transparent pixel. -/
theorem sourceOver_alpha0_clear (s : RGBA) (hs : s.a = 0) :
    sourceOver s clearPixel = clearPixel := by
  simp [sourceOver, clearPixel, hs]

/-- `drawImage` acts pixelwise as `source-over`. -/
theorem drawImage_apply (src dst : Surface) (p : ℕ × ℕ) :
    drawImage src dst p = sourceOver (src p) (dst p) := rfl

/-- Core of C5, by induction over the decode loop: whatever the incoming
compositing canvas, if frame `i` has disposal 2 then the output of frame
`i+1` is transparent at every pixel of frame `i`'s rectangle that frame
`i+1` does not itself draw. -/
theorem decodeLoop_disposal2 (p : ℕ × ℕ) :
    ∀ (frames : List FrameInfo) (comp : Surface) (i : ℕ) (fi fi1 : FrameInfo),
      frames[i]? = some fi → frames[i + 1]? = some fi1 →
      fi.disposal = 2 → inFrameRect fi p = true → (fi1.pixels p).a = 0 →
      ∃ fr, (decodeLoop comp frames)[i + 1]? = some fr ∧ fr.canvas p = clearPixel := by
  intro frames
  induction frames with
  | nil => intro comp i fi fi1 h1; simp at h1
  | cons f0 rest ih =>
    intro comp i fi fi1 h1 h2 hd hp ha
    cases i with
    | zero =>
      rw [List.getElem?_cons_zero, Option.some_inj] at h1
      subst h1
      rw [List.getElem?_cons_succ] at h2
      cases rest with
      | nil => simp at h2
      | cons f1 rest' =>
        rw [List.getElem?_cons_zero, Option.some_inj] at h2
        subst h2
        simp only [decodeLoop, hd, if_pos, List.getElem?_cons_succ,
          List.getElem?_cons_zero, Option.some_inj]
        refine ⟨_, rfl, ?_⟩
        have hcomp3 : ∀ c2 : Surface, clearFrameRect c2 f0 p = clearPixel :=
          fun c2 => clearFrameRect_inside c2 f0 p hp
        dsimp only
        rw [drawImage_apply]
        have hdst :
            (if f1.disposal = 2 then
                clearFrameRect (clearFrameRect (drawImage f0.pixels
                  (clearFrameRect comp f0)) f0) f1
              else clearFrameRect (drawImage f0.pixels
                (clearFrameRect comp f0)) f0) p = clearPixel := by
          split
          · exact clearFrameRect_clear_point _ f1 p (hcomp3 _)
          · exact hcomp3 _
        rw [hdst]
        exact sourceOver_alpha0_clear _ ha
    | succ i' =>
      rw [List.getElem?_cons_succ] at h1 h2
      simp only [decodeLoop, List.getElem?_cons_succ]
      exact ih _ i' fi fi1 h1 h2 hd hp ha

/-- C5: in `decodeGif`, a frame with disposal 2 (restore to background) has
its rectangle cleared immediately after its output snapshot, so the next
frame's output is transparent on that rectangle wherever the next frame does
not itself draw. -/
theorem gif_disposal2_clears_region (reader : GifReaderModel) (i : ℕ)
    (fi fi1 : FrameInfo) (p : ℕ × ℕ)
    (hi : reader.frames[i]? = some fi)
    (hi1 : reader.frames[i + 1]? = some fi1)
    (hd : fi.disposal = 2)
    (hp : inFrameRect fi p = true)
    (ha : (fi1.pixels p).a = 0) :
    ∃ fr, (decodeGif reader).frames[i + 1]? = some fr ∧ fr.canvas p = clearPixel :=
  decodeLoop_disposal2 p reader.frames blankSurface i fi fi1 hi hi1 hd hp ha

/-- Witness for C5: the spec's 3-frame example — frame 2 draws an opaque red
square at (2,2)-(6,6) with disposal 2; output frame 3 is transparent at
(3,3). -/
theorem gif_disposal2_clears_region_witness :
    c5Reader.frames[1]? = some c5Frame2 ∧
    c5Reader.frames[1 + 1]? = some c5Frame3 ∧
    c5Frame2.disposal = 2 ∧
    inFrameRect c5Frame2 (3, 3) = true ∧
    (c5Frame3.pixels (3, 3)).a = 0 ∧
    (∃ fr, (decodeGif c5Reader).frames[1 + 1]? = some fr ∧
      fr.canvas (3, 3) = clearPixel) :=
  ⟨rfl, rfl, rfl, by decide, rfl,
   gif_disposal2_clears_region c5Reader 1 c5Frame2 c5Frame3 (3, 3) rfl rfl rfl
     (by decide) rfl⟩

/-- `Map.set` keeps the key list unchanged on update and appends the new key
otherwise. -/
theorem mapSet_keys (m : List (String × CacheEntry)) (k : String) (v : CacheEntry) :
    (mapSet m k v).map Prod.fst =
      if (m.map Prod.fst).contains k then m.map Prod.fst
      else m.map Prod.fst ++ [k] := by
  unfold mapSet
  split
  · rw [List.map_map]
    refine List.map_congr_left ?_
    intro e _
    by_cases he : e.1 = k
    · simp [he]
    · simp [he]
  · simp

/-- `Map.set` grows the map by at most one entry. -/
theorem mapSet_length_le (m : List (String × CacheEntry)) (k : String)
    (v : CacheEntry) : (mapSet m k v).length ≤ m.length + 1 := by
  unfold mapSet
  split
  · simp
  · simp

/-- `Map.set` grows the map by zero or one entries. -/
theorem mapSet_length_cases (m : List (String × CacheEntry)) (k : String)
    (v : CacheEntry) :
    (mapSet m k v).length = m.length ∨ (mapSet m k v).length = m.length + 1 := by
  unfold mapSet
  split
  · left; simp
  · right; simp

/-- `Map.set` never removes a key. -/
theorem mapSet_mem_keys_of (m : List (String × CacheEntry)) (k : String)
    (v : CacheEntry) (k' : String) (h : k' ∈ m.map Prod.fst) :
    k' ∈ (mapSet m k v).map Prod.fst := by
  rw [mapSet_keys]
  split
  · exact h
  · exact List.mem_append_left _ h

/-- `Map.set` with a non-empty key preserves non-emptiness of all keys. -/
theorem mapSet_keys_ne (m : List (String × CacheEntry)) (k : String)
    (v : CacheEntry) (hm : ∀ e ∈ m, e.1 ≠ "") (hk : k ≠ "") :
    ∀ e ∈ mapSet m k v, e.1 ≠ "" := by
  intro e he
  unfold mapSet at he
  split at he
  · obtain ⟨e₀, he₀, rfl⟩ := List.mem_map.mp he
    by_cases h : e₀.1 = k
    · simp [h, hk]
    · simp only [h, if_false]
      exact hm e₀ he₀
  · rcases List.mem_append.mp he with h | h
    · exact hm e h
    · rcases List.mem_singleton.mp h with rfl
      exact hk

/-- `Map.set` preserves distinctness of keys. -/
theorem mapSet_keys_nodup (m : List (String × CacheEntry)) (k : String)
    (v : CacheEntry) (hm : (m.map Prod.fst).Nodup) :
    ((mapSet m k v).map Prod.fst).Nodup := by
  rw [mapSet_keys]
  split
  · exact hm
  · rename_i h
    have hk : k ∉ m.map Prod.fst := by simpa using h
    exact hm.append (List.nodup_singleton k)
      (fun a ha hb => by rw [List.mem_singleton.mp hb] at ha; exact hk ha)

/-- Specification of the eviction scan's fold once `oldest` is a number: the
result is the running minimum, and the reported key belongs to an entry
attaining it (or is the incoming key with the incoming minimum). -/
theorem scan_foldl_spec (l : List (String × CacheEntry)) :
    ∀ (o : ℕ) (k : String),
      ∃ o' k', l.foldl scanStep (some o, k) = (some o', k') ∧ o' ≤ o ∧
        (∀ e ∈ l, o' ≤ e.2.lastUsed) ∧
        ((k' = k ∧ o' = o) ∨ ∃ e ∈ l, e.1 = k' ∧ e.2.lastUsed = o') := by
  induction l with
  | nil =>
    intro o k
    exact ⟨o, k, rfl, le_refl _, by simp, Or.inl ⟨rfl, rfl⟩⟩
  | cons e l ih =>
    intro o k
    rw [List.foldl_cons]
    by_cases h : e.2.lastUsed < o
    · have hstep : scanStep (some o, k) e = (some e.2.lastUsed, e.1) := by
        simp [scanStep, h]
      rw [hstep]
      obtain ⟨o', k', heq, hle, hmin, horig⟩ := ih e.2.lastUsed e.1
      refine ⟨o', k', heq, le_of_lt (lt_of_le_of_lt hle h), ?_, ?_⟩
      · intro e' he'
        rcases List.mem_cons.mp he' with rfl | he'
        · exact hle
        · exact hmin e' he'
      · rcases horig with ⟨hk', ho'⟩ | ⟨e', he', h1, h2⟩
        · exact Or.inr ⟨e, List.mem_cons_self e l, hk'.symm ▸ rfl, ho' ▸ rfl⟩
        · exact Or.inr ⟨e', List.mem_cons_of_mem e he', h1, h2⟩
    · have hstep : scanStep (some o, k) e = (some o, k) := by
        simp [scanStep, h]
      rw [hstep]
      obtain ⟨o', k', heq, hle, hmin, horig⟩ := ih o k
      refine ⟨o', k', heq, hle, ?_, ?_⟩
      · intro e' he'
        rcases List.mem_cons.mp he' with rfl | he'
        · exact le_trans hle (Nat.not_lt.mp h)
        · exact hmin e' he'
      · rcases horig with hk | ⟨e', he', h1, h2⟩
        · exact Or.inl hk
        · exact Or.inr ⟨e', List.mem_cons_of_mem e he', h1, h2⟩

/-- The eviction scan of a non-empty map reports a key of an entry with a
minimal `lastUsed`. -/
theorem oldestScan_spec (l : List (String × CacheEntry)) (hne : l ≠ []) :
    ∃ ve, (oldestScan l, ve) ∈ l ∧ ∀ e ∈ l, ve.lastUsed ≤ e.2.lastUsed := by
  cases l with
  | nil => exact absurd rfl hne
  | cons e l =>
    unfold oldestScan
    rw [List.foldl_cons]
    have hstep : scanStep (none, "") e = (some e.2.lastUsed, e.1) := by
      simp [scanStep]
    rw [hstep]
    obtain ⟨o', k', heq, hle, hmin, horig⟩ := scan_foldl_spec l e.2.lastUsed e.1
    rw [heq]
    dsimp only
    rcases horig with ⟨hk', ho'⟩ | ⟨e', he', h1, h2⟩
    · subst hk'
      refine ⟨e.2, ?_, ?_⟩
      · exact List.mem_cons_self e l
      · intro e'' he''
        rcases List.mem_cons.mp he'' with rfl | he''
        · exact le_refl _
        · exact ho'.symm.le.trans (hmin e'' he'')
    · subst h1
      refine ⟨e'.2, ?_, ?_⟩
      · exact List.mem_cons_of_mem e he'
      · intro e'' he''
        rcases List.mem_cons.mp he'' with rfl | he''
        · exact le_of_eq h2 |>.trans hle
        · exact le_of_eq h2 |>.trans (hmin e'' he'')

/-- Deleting a key that occurs once (keys are distinct) removes exactly one
entry. -/
theorem filter_ne_key_length (l : List (String × CacheEntry)) (vk : String)
    (ve : CacheEntry) (hnd : (l.map Prod.fst).Nodup) (hmem : (vk, ve) ∈ l) :
    (l.filter (fun e => e.1 ≠ vk)).length + 1 = l.length := by
  induction l with
  | nil => cases hmem
  | cons e l ih =>
    rw [List.map_cons] at hnd
    have hhead : e.1 ∉ l.map Prod.fst := (List.nodup_cons.mp hnd).1
    have htail : (l.map Prod.fst).Nodup := (List.nodup_cons.mp hnd).2
    by_cases he : e.1 = vk
    · have hvk : vk ∉ l.map Prod.fst := he ▸ hhead
      have hall : l.filter (fun e => e.1 ≠ vk) = l := by
        rw [List.filter_eq_self]
        intro e' he'
        have hne : e'.1 ≠ vk := fun hcon =>
          hvk (hcon ▸ List.mem_map.mpr ⟨e', he', rfl⟩)
        simpa using hne
      rw [List.filter_cons, if_neg (by simp [he]), hall, List.length_cons]
    · have hmem' : (vk, ve) ∈ l := by
        rcases List.mem_cons.mp hmem with h | h
        · exact absurd (congrArg Prod.fst h) (by simpa using Ne.symm he)
        · exact h
      have ih' := ih htail hmem'
      rw [List.filter_cons, if_pos (show (decide (e.1 ≠ vk)) = true by simp [he])]
      simp only [List.length_cons]
      omega

/-- The deleted key is gone after the filter. -/
theorem filter_ne_key_not_mem (l : List (String × CacheEntry)) (vk : String) :
    vk ∉ (l.filter (fun e => e.1 ≠ vk)).map Prod.fst := by
  intro h
  obtain ⟨e, he, hek⟩ := List.mem_map.mp h
  have := (List.mem_filter.mp he).2
  simp [hek] at this

/-- Entries with other keys survive the filter. -/
theorem mem_filter_ne_key (l : List (String × CacheEntry)) (vk : String)
    (e : String × CacheEntry) (he : e ∈ l) (hne : e.1 ≠ vk) :
    e ∈ l.filter (fun e => e.1 ≠ vk) :=
  List.mem_filter.mpr ⟨he, by simpa using hne⟩

/-- In a map with distinct keys, a key determines its entry. -/
theorem keys_nodup_unique_val (l : List (String × CacheEntry))
    (hnd : (l.map Prod.fst).Nodup) (k : String) (u w : CacheEntry)
    (hu : (k, u) ∈ l) (hw : (k, w) ∈ l) : u = w := by
  induction l with
  | nil => cases hu
  | cons e l ih =>
    rw [List.map_cons] at hnd
    have hhead : e.1 ∉ l.map Prod.fst := (List.nodup_cons.mp hnd).1
    have htail : (l.map Prod.fst).Nodup := (List.nodup_cons.mp hnd).2
    rcases List.mem_cons.mp hu with hu1 | hu1 <;>
      rcases List.mem_cons.mp hw with hw1 | hw1
    · rw [← hu1] at hw1
      exact ((Prod.ext_iff.mp hw1).2).symm
    · exfalso
      apply hhead
      rw [show e.1 = k from congrArg Prod.fst hu1.symm]
      exact List.mem_map.mpr ⟨(k, w), hw1, rfl⟩
    · exfalso
      apply hhead
      rw [show e.1 = k from congrArg Prod.fst hw1.symm]
      exact List.mem_map.mpr ⟨(k, u), hu1, rfl⟩
    · exact ih htail hu1 hw1

/-- A map with at least two entries and distinct keys has an entry whose key
differs from any given key. -/
theorem exists_other_key (l : List (String × CacheEntry))
    (hnd : (l.map Prod.fst).Nodup) (h2 : 2 ≤ l.length) (k : String) :
    ∃ e ∈ l, e.1 ≠ k := by
  match l, h2 with
  | a :: b :: rest, _ =>
    rw [List.map_cons, List.map_cons] at hnd
    have hab : a.1 ≠ b.1 := by
      have := (List.nodup_cons.mp hnd).1
      intro hcon
      exact this (hcon ▸ List.mem_cons_self b.1 _)
    by_cases ha : a.1 = k
    · exact ⟨b, List.mem_cons_of_mem a (List.mem_cons_self b rest), fun hb =>
        hab (by rw [ha, hb])⟩
    · exact ⟨a, List.mem_cons_self a _, ha⟩

/-- `evictLru` on a non-empty map with truthy keys deletes exactly one
least-recently-used entry. -/
theorem evictLru_spec (c : RenderCache) (hne : c.entries ≠ [])
    (hk : ∀ e ∈ c.entries, e.1 ≠ "") :
    ∃ ve, (oldestScan c.entries, ve) ∈ c.entries ∧
      (∀ e ∈ c.entries, ve.lastUsed ≤ e.2.lastUsed) ∧
      c.evictLru.entries = c.entries.filter (fun e => e.1 ≠ oldestScan c.entries) := by
  obtain ⟨ve, hmem, hmin⟩ := oldestScan_spec c.entries hne
  refine ⟨ve, hmem, hmin, ?_⟩
  unfold RenderCache.evictLru
  rw [if_neg (hk _ hmem)]

/-- `get` refreshes the last-used timestamp of the entry it touches. -/
theorem get_refresh (c : RenderCache) (now : ℕ) (key : String) :
    ∀ e ∈ (c.get now key).1.entries, e.1 = key → e.2.lastUsed = now := by
  unfold RenderCache.get
  cases hf : c.entries.find? (fun e => e.1 = key) with
  | none =>
    intro e he hek
    have hnone := List.find?_eq_none.mp hf e he
    simp [hek] at hnone
  | some e0 =>
    intro e he hek
    obtain ⟨e₁, he₁, rfl⟩ := List.mem_map.mp he
    by_cases h : e₁.1 = key
    · simp [h]
    · simp only [h, if_false] at hek

/-- `get` does not change the key list. -/
theorem get_keys (c : RenderCache) (now : ℕ) (key : String) :
    (c.get now key).1.entries.map Prod.fst = c.entries.map Prod.fst := by
  unfold RenderCache.get
  cases hf : c.entries.find? (fun e => e.1 = key) with
  | none => rfl
  | some e0 =>
    rw [List.map_map]
    refine List.map_congr_left ?_
    intro e _
    by_cases h : e.1 = key
    · simp [h]
    · simp [h]

/-- `get` does not change the number of entries. -/
theorem get_length (c : RenderCache) (now : ℕ) (key : String) :
    (c.get now key).1.entries.length = c.entries.length := by
  have := congrArg List.length (get_keys c now key)
  simpa using this

/-- The cache states reachable by well-keyed operation sequences: all keys
truthy (non-empty), keys distinct, and at most `MAX_ENTRIES` entries. -/
structure GoodCache (c : RenderCache) : Prop where
  keysNe : ∀ e ∈ c.entries, e.1 ≠ ""
  keysNodup : (c.entries.map Prod.fst).Nodup
  sizeLe : c.entries.length ≤ MAX_ENTRIES

/-- A `set` with a truthy key preserves the cache invariant. -/
theorem set_good (c : RenderCache) (hg : GoodCache c) (now : ℕ) (k : String)
    (cv : ℕ) (hk : k ≠ "") : GoodCache (c.set now k cv) := by
  unfold RenderCache.set
  by_cases hcap : MAX_ENTRIES ≤ c.entries.length
  · rw [if_pos hcap]
    have hne : c.entries ≠ [] := by
      intro h
      rw [h] at hcap
      simp [MAX_ENTRIES] at hcap
    obtain ⟨ve, hmem, hmin, hev⟩ := evictLru_spec c hne hg.keysNe
    have hflen := filter_ne_key_length c.entries (oldestScan c.entries) ve
      hg.keysNodup hmem
    have hfkeysne : ∀ e ∈ c.evictLru.entries, e.1 ≠ "" := by
      rw [hev]
      intro e he
      exact hg.keysNe e (List.mem_filter.mp he).1
    have hfnodup : (c.evictLru.entries.map Prod.fst).Nodup := by
      rw [hev]
      exact hg.keysNodup.sublist (List.Sublist.map Prod.fst (List.filter_sublist _))
    refine ⟨?_, ?_, ?_⟩
    · exact mapSet_keys_ne _ _ _ hfkeysne hk
    · exact mapSet_keys_nodup _ _ _ hfnodup
    · have h1 := mapSet_length_le c.evictLru.entries k ⟨cv, now⟩
      have h2 : c.evictLru.entries.length + 1 = c.entries.length := by
        rw [hev]; exact hflen
      have hles := hg.sizeLe
      dsimp only
      simp only [MAX_ENTRIES] at *
      omega
  · rw [if_neg hcap]
    refine ⟨?_, ?_, ?_⟩
    · exact mapSet_keys_ne _ _ _ hg.keysNe hk
    · exact mapSet_keys_nodup _ _ _ hg.keysNodup
    · have h1 := mapSet_length_le c.entries k ⟨cv, now⟩
      dsimp only
      simp only [MAX_ENTRIES] at *
      omega

/-- Every well-keyed operation preserves the cache invariant. -/
theorem runOp_good (c : RenderCache) (op : CacheOp) (hg : GoodCache c)
    (hop : setKeyOk op = true) : GoodCache (runOp c op) := by
  cases op with
  | get now key =>
    refine ⟨?_, ?_, ?_⟩
    · intro e he
      have : e.1 ∈ (c.get now key).1.entries.map Prod.fst :=
        List.mem_map.mpr ⟨e, he, rfl⟩
      rw [get_keys] at this
      obtain ⟨e', he', hee⟩ := List.mem_map.mp this
      exact hee ▸ hg.keysNe e' he'
    · rw [show (runOp c (CacheOp.get now key)).entries = (c.get now key).1.entries
        from rfl, get_keys]
      exact hg.keysNodup
    · rw [show (runOp c (CacheOp.get now key)).entries = (c.get now key).1.entries
        from rfl, get_length]
      exact hg.sizeLe
  | set now key cv =>
    have hkey : key ≠ "" := by simpa [setKeyOk] using hop
    exact set_good c hg now key cv hkey
  | clear =>
    refine ⟨?_, ?_, ?_⟩ <;> simp [runOp, RenderCache.clear, MAX_ENTRIES]

/-- Folding well-keyed operations from an invariant state stays invariant. -/
theorem foldl_good (ops : List CacheOp) :
    ∀ c : RenderCache, GoodCache c → (∀ op ∈ ops, setKeyOk op = true) →
      GoodCache (ops.foldl runOp c) := by
  induction ops with
  | nil => intro c hc _; exact hc
  | cons op ops ih =>
    intro c hc hv
    rw [List.foldl_cons]
    exact ih (runOp c op) (runOp_good c op hc (hv op (List.mem_cons_self op ops)))
      (fun o ho => hv o (List.mem_cons_of_mem op ho))

/-- Every well-keyed operation sequence lands in an invariant state. -/
theorem runOps_good (ops : List CacheOp) (hv : ValidOps ops) :
    GoodCache (runOps ops) :=
  foldl_good ops ⟨[]⟩ ⟨by simp, by simp, by simp [MAX_ENTRIES]⟩ hv

/-- C4 (amended): for every sequence of get/set/clear operations whose `set`
keys are non-empty (as every fingerprint built by `makeKey` is), the cache
never exceeds the capacity of 300 entries; `get` refreshes the touched
entry's last-used timestamp; and a `set` performed at capacity evicts
exactly one entry holding a least last-used timestamp (the first such in
insertion order) — every other entry survives, the victim's key is gone
unless re-inserted, and an entry that is strictly more recently used than
every other entry is never the victim. -/
theorem renderCache_lru_spec (ops : List CacheOp) (hv : ValidOps ops) :
    (runOps ops).entries.length ≤ MAX_ENTRIES ∧
    (∀ now key e, e ∈ ((runOps ops).get now key).1.entries → e.1 = key →
      e.2.lastUsed = now) ∧
    (∀ now k cv, k ≠ "" → (runOps ops).entries.length = MAX_ENTRIES →
      ∃ vk ve, (vk, ve) ∈ (runOps ops).entries ∧
        (∀ e ∈ (runOps ops).entries, ve.lastUsed ≤ e.2.lastUsed) ∧
        ((runOps ops).set now k cv).entries.length ≤ MAX_ENTRIES ∧
        MAX_ENTRIES - 1 ≤ ((runOps ops).set now k cv).entries.length ∧
        (∀ e ∈ (runOps ops).entries, e.1 ≠ vk →
          e.1 ∈ ((runOps ops).set now k cv).entries.map Prod.fst) ∧
        (vk ≠ k → vk ∉ ((runOps ops).set now k cv).entries.map Prod.fst) ∧
        (∀ e' ∈ (runOps ops).entries,
          (∀ e ∈ (runOps ops).entries, e.1 ≠ e'.1 → e.2.lastUsed < e'.2.lastUsed) →
          2 ≤ (runOps ops).entries.length → vk ≠ e'.1)) := by
  have hg := runOps_good ops hv
  refine ⟨hg.sizeLe, fun now key => get_refresh (runOps ops) now key, ?_⟩
  intro now k cv hk hcap
  have hne : (runOps ops).entries ≠ [] := by
    intro h
    rw [h] at hcap
    simp [MAX_ENTRIES] at hcap
  obtain ⟨ve, hmem, hmin, hev⟩ := evictLru_spec (runOps ops) hne hg.keysNe
  have hflen := filter_ne_key_length (runOps ops).entries
    (oldestScan (runOps ops).entries) ve hg.keysNodup hmem
  have hset : ((runOps ops).set now k cv).entries =
      mapSet ((runOps ops).evictLru.entries) k ⟨cv, now⟩ := by
    unfold RenderCache.set
    rw [if_pos (le_of_eq hcap.symm)]
  refine ⟨oldestScan (runOps ops).entries, ve, hmem, hmin, ?_, ?_, ?_, ?_, ?_⟩
  · rw [hset]
    have h1 := mapSet_length_le (runOps ops).evictLru.entries k ⟨cv, now⟩
    have h2 : (runOps ops).evictLru.entries.length + 1 =
        (runOps ops).entries.length := by
      rw [hev]; exact hflen
    simp only [MAX_ENTRIES] at *
    omega
  · rw [hset]
    rcases mapSet_length_cases (runOps ops).evictLru.entries k ⟨cv, now⟩ with h1 | h1 <;>
    · have h2 : (runOps ops).evictLru.entries.length + 1 =
          (runOps ops).entries.length := by
        rw [hev]; exact hflen
      simp only [MAX_ENTRIES] at *
      omega
  · intro e he hnev
    rw [hset]
    apply mapSet_mem_keys_of
    rw [hev]
    exact List.mem_map.mpr ⟨e, mem_filter_ne_key _ _ e he hnev, rfl⟩
  · intro hvk hmemafter
    rw [hset, mapSet_keys] at hmemafter
    have hnotin : oldestScan (runOps ops).entries ∉
        (runOps ops).evictLru.entries.map Prod.fst := by
      rw [hev]
      exact filter_ne_key_not_mem _ _
    revert hmemafter
    split
    · exact hnotin
    · intro hmemafter
      rcases List.mem_append.mp hmemafter with h | h
      · exact hnotin h
      · exact hvk (List.mem_singleton.mp h)
  · intro e' he' hstrict h2
    intro heq
    obtain ⟨e2, he2, hne2⟩ := exists_other_key (runOps ops).entries hg.keysNodup h2 e'.1
    have hlt := hstrict e2 he2 hne2
    have hveq : ve = e'.2 := by
      refine keys_nodup_unique_val (runOps ops).entries hg.keysNodup e'.1 ve e'.2
        ?_ ?_
      · exact heq ▸ hmem
      · rw [Prod.mk.eta]
        exact he'
    have := hmin e2 he2
    rw [hveq] at this
    omega

/-- Witness for C4 (amended): a single well-keyed `set`. -/
theorem renderCache_lru_spec_witness :
    ValidOps [CacheOp.set 5 "a" 1] ∧
    ((runOps [CacheOp.set 5 "a" 1]).entries.length ≤ MAX_ENTRIES ∧
      (∀ now key e, e ∈ ((runOps [CacheOp.set 5 "a" 1]).get now key).1.entries →
        e.1 = key → e.2.lastUsed = now) ∧
      (∀ now k cv, k ≠ "" →
        (runOps [CacheOp.set 5 "a" 1]).entries.length = MAX_ENTRIES →
        ∃ vk ve, (vk, ve) ∈ (runOps [CacheOp.set 5 "a" 1]).entries ∧
          (∀ e ∈ (runOps [CacheOp.set 5 "a" 1]).entries,
            ve.lastUsed ≤ e.2.lastUsed) ∧
          ((runOps [CacheOp.set 5 "a" 1]).set now k cv).entries.length ≤ MAX_ENTRIES ∧
          MAX_ENTRIES - 1 ≤ ((runOps [CacheOp.set 5 "a" 1]).set now k cv).entries.length ∧
          (∀ e ∈ (runOps [CacheOp.set 5 "a" 1]).entries, e.1 ≠ vk →
            e.1 ∈ ((runOps [CacheOp.set 5 "a" 1]).set now k cv).entries.map Prod.fst) ∧
          (vk ≠ k →
            vk ∉ ((runOps [CacheOp.set 5 "a" 1]).set now k cv).entries.map Prod.fst) ∧
          (∀ e' ∈ (runOps [CacheOp.set 5 "a" 1]).entries,
            (∀ e ∈ (runOps [CacheOp.set 5 "a" 1]).entries, e.1 ≠ e'.1 →
              e.2.lastUsed < e'.2.lastUsed) →
            2 ≤ (runOps [CacheOp.set 5 "a" 1]).entries.length → vk ≠ e'.1))) :=
  ⟨by decide, renderCache_lru_spec [CacheOp.set 5 "a" 1] (by decide)⟩

/-- The overflow keys are non-empty. -/
theorem c4Key_ne_empty (i : ℕ) : c4Key i ≠ "" := by
  intro h
  have := congrArg (fun s : String => s.data.length) h
  simp [c4Key] at this

/-- The overflow keys are pairwise distinct (distinct lengths). -/
theorem c4Key_inj (i j : ℕ) (h : c4Key i = c4Key j) : i = j := by
  have := congrArg (fun s : String => s.data.length) h
  simpa [c4Key] using this

/-- The overflow keys differ from the final key `zz`. -/
theorem c4Key_ne_zz (i : ℕ) : c4Key i ≠ "zz" := by
  intro h
  have hdata := congrArg String.data h
  simp only [c4Key] at hdata
  have hz : 'z' ∈ List.replicate (i + 1) 'a' := by
    rw [hdata]
    exact List.mem_cons_self 'z' _
  have := List.eq_of_mem_replicate hz
  simp at this

/-- The cache state after the empty-keyed `set` and `n ≤ 299` further
distinct `set`s: 1 + n entries in insertion order, none evicted. -/
theorem c4_state (n : ℕ) (hn : n ≤ 299) :
    runOps (CacheOp.set 0 "" 0 ::
        (List.range n).map (fun i => CacheOp.set 1 (c4Key i) 0)) =
      ⟨("", ⟨0, 0⟩) :: (List.range n).map (fun i => (c4Key i, ⟨0, 1⟩))⟩ := by
  induction n with
  | zero => rfl
  | succ n ih =>
    have hn' : n ≤ 299 := Nat.le_of_succ_le hn
    have hsplit : (CacheOp.set 0 "" 0 ::
        (List.range (n + 1)).map (fun i => CacheOp.set 1 (c4Key i) 0)) =
        (CacheOp.set 0 "" 0 ::
          (List.range n).map (fun i => CacheOp.set 1 (c4Key i) 0)) ++
          [CacheOp.set 1 (c4Key n) 0] := by
      rw [List.range_succ, List.map_append]
      rfl
    rw [hsplit]
    unfold runOps
    rw [List.foldl_append]
    rw [show (CacheOp.set 0 "" 0 ::
        (List.range n).map (fun i => CacheOp.set 1 (c4Key i) 0)).foldl runOp ⟨[]⟩ =
        runOps (CacheOp.set 0 "" 0 ::
          (List.range n).map (fun i => CacheOp.set 1 (c4Key i) 0)) from rfl]
    rw [ih hn']
    show RenderCache.set _ 1 (c4Key n) 0 = _
    unfold RenderCache.set
    have hlen : (("", (⟨0, 0⟩ : CacheEntry)) ::
        (List.range n).map (fun i => (c4Key i, (⟨0, 1⟩ : CacheEntry)))).length =
        n + 1 := by
      simp
    rw [if_neg (by rw [hlen]; simp only [MAX_ENTRIES]; omega)]
    have hfresh : ((("", (⟨0, 0⟩ : CacheEntry)) ::
        (List.range n).map (fun i => (c4Key i, (⟨0, 1⟩ : CacheEntry)))).map
          Prod.fst).contains (c4Key n) = false := by
      have hnotmem : c4Key n ∉ (("", (⟨0, 0⟩ : CacheEntry)) ::
          (List.range n).map (fun i => (c4Key i, (⟨0, 1⟩ : CacheEntry)))).map
            Prod.fst := by
        intro hmem
        rw [List.map_cons] at hmem
        rcases List.mem_cons.mp hmem with h | h
        · exact c4Key_ne_empty n h
        · rw [List.map_map] at h
          obtain ⟨i, hi, hkey⟩ := List.mem_map.mp h
          have := c4Key_inj i n hkey
          rw [this] at hi
          exact absurd (List.mem_range.mp hi) (lt_irrefl n)
      simpa using hnotmem
    unfold mapSet
    dsimp only
    rw [hfresh]
    simp only [Bool.false_eq_true, if_false]
    rw [List.range_succ, List.map_append]
    rfl

/-- At the full 300-entry state the eviction scan reports the empty key
(the first entry has the strictly smallest timestamp). -/
theorem c4_scan :
    oldestScan (("", (⟨0, 0⟩ : CacheEntry)) ::
      (List.range 299).map (fun i => (c4Key i, (⟨0, 1⟩ : CacheEntry)))) = "" := by
  unfold oldestScan
  rw [List.foldl_cons]
  rw [show scanStep (none, "") ("", (⟨0, 0⟩ : CacheEntry)) = (some 0, "") from rfl]
  have hkeep : ∀ (l : List (String × CacheEntry)) (o : ℕ) (k : String),
      (∀ e ∈ l, ¬ e.2.lastUsed < o) → l.foldl scanStep (some o, k) = (some o, k) := by
    intro l
    induction l with
    | nil => intro o k _; rfl
    | cons e l ih =>
      intro o k h
      rw [List.foldl_cons]
      have hstep : scanStep (some o, k) e = (some o, k) := by
        simp [scanStep, h e (List.mem_cons_self e l)]
      rw [hstep]
      exact ih o k (fun e' he' => h e' (List.mem_cons_of_mem e he'))
  rw [hkeep _ 0 "" ?_]
  intro e he
  obtain ⟨i, _, rfl⟩ := List.mem_map.mp he
  simp

/-- Running the overflow sequence leaves 301 entries in the cache. -/
theorem c4_overflow : (runOps c4BadOps).entries.length = 301 := by
  have hsplit : c4BadOps = (CacheOp.set 0 "" 0 ::
      (List.range 299).map (fun i => CacheOp.set 1 (c4Key i) 0)) ++
      [CacheOp.set 2 "zz" 0] := rfl
  rw [hsplit]
  unfold runOps
  rw [List.foldl_append]
  rw [show (CacheOp.set 0 "" 0 ::
      (List.range 299).map (fun i => CacheOp.set 1 (c4Key i) 0)).foldl runOp ⟨[]⟩ =
      runOps (CacheOp.set 0 "" 0 ::
        (List.range 299).map (fun i => CacheOp.set 1 (c4Key i) 0)) from rfl]
  rw [c4_state 299 (le_refl _)]
  show (RenderCache.set _ 2 "zz" 0).entries.length = 301
  unfold RenderCache.set
  have hlen : (("", (⟨0, 0⟩ : CacheEntry)) ::
      (List.range 299).map (fun i => (c4Key i, (⟨0, 1⟩ : CacheEntry)))).length =
      300 := by
    simp
  rw [if_pos (by rw [hlen]; simp [MAX_ENTRIES])]
  unfold RenderCache.evictLru
  dsimp only
  rw [c4_scan]
  rw [if_pos rfl]
  have hfresh : ((("", (⟨0, 0⟩ : CacheEntry)) ::
      (List.range 299).map (fun i => (c4Key i, (⟨0, 1⟩ : CacheEntry)))).map
        Prod.fst).contains "zz" = false := by
    have hnotmem : "zz" ∉ (("", (⟨0, 0⟩ : CacheEntry)) ::
        (List.range 299).map (fun i => (c4Key i, (⟨0, 1⟩ : CacheEntry)))).map
          Prod.fst := by
      intro hmem
      rw [List.map_cons] at hmem
      rcases List.mem_cons.mp hmem with h | h
      · exact absurd h.symm (by simp)
      · rw [List.map_map] at h
        obtain ⟨i, _, hkey⟩ := List.mem_map.mp h
        exact c4Key_ne_zz i hkey
    simpa using hnotmem
  unfold mapSet
  dsimp only
  rw [hfresh]
  simp only [Bool.false_eq_true, if_false]
  simp

/-- Counterexample for C4: the operation sequence `c4BadOps` (whose first
fingerprint is the empty string) drives the cache to 301 entries, above the
fixed capacity of 300 — the eviction guard `if (oldestKey)` treats the empty
key as "nothing to evict". -/
theorem renderCache_capacity_cex :
    ¬ ((runOps c4BadOps).entries.length ≤ MAX_ENTRIES) := by
  rw [c4_overflow]
  simp [MAX_ENTRIES]

/-- With a source URL present, `renderSlot` never resolves to `null`: it
serves a cached canvas, rejects (only if the base load rejects), or renders. -/
theorem renderSlot_ne_null (env : RenderEnv) (slot : Slot)
    (gifFrameIndex : Option ℤ) (hurl : slot.spriteUrl ≠ "") :
    renderSlot env slot gifFrameIndex ≠ .ok none := by
  unfold renderSlot
  rw [if_neg hurl]
  dsimp only
  split
  · simp
  · split
    · simp
    · simp

/-- With a source URL and a resolvable base raster (an animation frame or a
successful sprite load), `renderSlot` returns a rendered canvas no matter
how icon, overlay or cosmetic asset loads behave. -/
theorem renderSlot_renders (env : RenderEnv) (slot : Slot)
    (gifFrameIndex : Option ℤ) (hurl : slot.spriteUrl ≠ "")
    (hbase : (slot.isAnimated = true ∧ ∃ fs, slot.gifFrames = some fs ∧
        0 < fs.length) ∨ (∃ img, env.load slot.spriteUrl = .ok img)) :
    ∃ c, renderSlot env slot gifFrameIndex = .ok (some c) := by
  unfold renderSlot
  rw [if_neg hurl]
  dsimp only
  split
  · exact ⟨_, rfl⟩
  · rcases hbase with ⟨hanim, fs, hfs, hlen⟩ | ⟨img, himg⟩
    · rw [hfs]
      dsimp only
      rw [if_pos (by simp [hanim, hlen])]
      exact ⟨_, rfl⟩
    · cases hgf : slot.gifFrames with
      | none =>
        dsimp only
        rw [himg]
        exact ⟨_, rfl⟩
      | some fs =>
        dsimp only
        by_cases hcase : (slot.isAnimated && decide (0 < fs.length)) = true
        · rw [if_pos hcase]
          exact ⟨_, rfl⟩
        · rw [if_neg hcase]
          rw [himg]
          exact ⟨_, rfl⟩

/-- C9: `renderSlot` resolves to `null` exactly when the slot has no source
sprite URL (the empty string, JavaScript-falsy); and whenever the base
raster is available, decoration failures (icon, overlay, cosmetic loads, or
unresolvable keys) never make it fail or return `null` — the failed
decoration is skipped and the base sprite still renders. -/
theorem renderSlot_spec (env : RenderEnv) (slot : Slot)
    (gifFrameIndex : Option ℤ) :
    (renderSlot env slot gifFrameIndex = .ok none ↔ slot.spriteUrl = "") ∧
    (slot.spriteUrl ≠ "" →
      ((slot.isAnimated = true ∧ ∃ fs, slot.gifFrames = some fs ∧
          0 < fs.length) ∨ (∃ img, env.load slot.spriteUrl = .ok img)) →
      ∃ c, renderSlot env slot gifFrameIndex = .ok (some c)) := by
  constructor
  · constructor
    · intro hres
      by_contra hurl
      exact renderSlot_ne_null env slot gifFrameIndex hurl hres
    · intro hurl
      unfold renderSlot
      rw [if_pos hurl]
  · exact renderSlot_renders env slot gifFrameIndex

/-- Witness for C9: a concrete slot whose base sprite loads while every
decoration asset load fails; the base still renders and the result is not
`null`. -/
theorem renderSlot_spec_witness :
    ((renderSlot c9Env c9Slot none = .ok none ↔ c9Slot.spriteUrl = "") ∧
      (c9Slot.spriteUrl ≠ "" →
        ((c9Slot.isAnimated = true ∧ ∃ fs, c9Slot.gifFrames = some fs ∧
            0 < fs.length) ∨ (∃ img, c9Env.load c9Slot.spriteUrl = .ok img)) →
        ∃ c, renderSlot c9Env c9Slot none = .ok (some c))) ∧
    c9Slot.spriteUrl ≠ "" ∧
    (∃ img, c9Env.load c9Slot.spriteUrl = .ok img) ∧
    (∃ c, renderSlot c9Env c9Slot none = .ok (some c)) :=
  ⟨renderSlot_spec c9Env c9Slot none, by decide, ⟨1, rfl⟩,
   (renderSlot_spec c9Env c9Slot none).2 (by decide) (Or.inr ⟨1, rfl⟩)⟩
